import Mathlib

set_option maxHeartbeats 1000000

/-!
Shallow embedding of the EPD import pipeline in
`scripts/database/02_store_epds_in_db.py`.

JSON documents (as produced by `json.load`) are modelled by `JVal`.
Python `None` is modelled by `JVal.null`.  Operations that can raise a
Python exception return `Except PyErr _`; the error constructors track
the exception class so that `try/except` clauses that catch only some
classes can be modelled faithfully.
-/

inductive JVal where
  | null : JVal
  | bool : Bool → JVal
  | num : ℚ → JVal
  | str : String → JVal
  | arr : List JVal → JVal
  | obj : List (String × JVal) → JVal

mutual

def JVal.decEq : (a b : JVal) → Decidable (a = b)
  | .null, .null => .isTrue rfl
  | .null, .bool _ => .isFalse fun h => JVal.noConfusion h
  | .null, .num _ => .isFalse fun h => JVal.noConfusion h
  | .null, .str _ => .isFalse fun h => JVal.noConfusion h
  | .null, .arr _ => .isFalse fun h => JVal.noConfusion h
  | .null, .obj _ => .isFalse fun h => JVal.noConfusion h
  | .bool _, .null => .isFalse fun h => JVal.noConfusion h
  | .bool x, .bool y =>
      if h : x = y then .isTrue (congrArg JVal.bool h)
      else .isFalse fun hc => h (JVal.bool.inj hc)
  | .bool _, .num _ => .isFalse fun h => JVal.noConfusion h
  | .bool _, .str _ => .isFalse fun h => JVal.noConfusion h
  | .bool _, .arr _ => .isFalse fun h => JVal.noConfusion h
  | .bool _, .obj _ => .isFalse fun h => JVal.noConfusion h
  | .num _, .null => .isFalse fun h => JVal.noConfusion h
  | .num _, .bool _ => .isFalse fun h => JVal.noConfusion h
  | .num x, .num y =>
      if h : x = y then .isTrue (congrArg JVal.num h)
      else .isFalse fun hc => h (JVal.num.inj hc)
  | .num _, .str _ => .isFalse fun h => JVal.noConfusion h
  | .num _, .arr _ => .isFalse fun h => JVal.noConfusion h
  | .num _, .obj _ => .isFalse fun h => JVal.noConfusion h
  | .str _, .null => .isFalse fun h => JVal.noConfusion h
  | .str _, .bool _ => .isFalse fun h => JVal.noConfusion h
  | .str _, .num _ => .isFalse fun h => JVal.noConfusion h
  | .str x, .str y =>
      if h : x = y then .isTrue (congrArg JVal.str h)
      else .isFalse fun hc => h (JVal.str.inj hc)
  | .str _, .arr _ => .isFalse fun h => JVal.noConfusion h
  | .str _, .obj _ => .isFalse fun h => JVal.noConfusion h
  | .arr _, .null => .isFalse fun h => JVal.noConfusion h
  | .arr _, .bool _ => .isFalse fun h => JVal.noConfusion h
  | .arr _, .num _ => .isFalse fun h => JVal.noConfusion h
  | .arr _, .str _ => .isFalse fun h => JVal.noConfusion h
  | .arr xs, .arr ys =>
      match JVal.decEqList xs ys with
      | .isTrue h => .isTrue (congrArg JVal.arr h)
      | .isFalse h => .isFalse fun hc => h (JVal.arr.inj hc)
  | .arr _, .obj _ => .isFalse fun h => JVal.noConfusion h
  | .obj _, .null => .isFalse fun h => JVal.noConfusion h
  | .obj _, .bool _ => .isFalse fun h => JVal.noConfusion h
  | .obj _, .num _ => .isFalse fun h => JVal.noConfusion h
  | .obj _, .str _ => .isFalse fun h => JVal.noConfusion h
  | .obj _, .arr _ => .isFalse fun h => JVal.noConfusion h
  | .obj xs, .obj ys =>
      match JVal.decEqObj xs ys with
      | .isTrue h => .isTrue (congrArg JVal.obj h)
      | .isFalse h => .isFalse fun hc => h (JVal.obj.inj hc)

def JVal.decEqList : (a b : List JVal) → Decidable (a = b)
  | [], [] => .isTrue rfl
  | [], _ :: _ => .isFalse fun h => List.noConfusion h
  | _ :: _, [] => .isFalse fun h => List.noConfusion h
  | x :: xs, y :: ys =>
      match JVal.decEq x y with
      | .isTrue h1 =>
          match JVal.decEqList xs ys with
          | .isTrue h2 => .isTrue (by rw [h1, h2])
          | .isFalse h2 => .isFalse fun hc => h2 (List.cons.inj hc).2
      | .isFalse h1 => .isFalse fun hc => h1 (List.cons.inj hc).1

def JVal.decEqObj : (a b : List (String × JVal)) → Decidable (a = b)
  | [], [] => .isTrue rfl
  | [], _ :: _ => .isFalse fun h => List.noConfusion h
  | _ :: _, [] => .isFalse fun h => List.noConfusion h
  | (k, v) :: xs, (k2, v2) :: ys =>
      if hk : k = k2 then
        match JVal.decEq v v2 with
        | .isTrue hv =>
            match JVal.decEqObj xs ys with
            | .isTrue ht => .isTrue (by rw [hk, hv, ht])
            | .isFalse ht => .isFalse fun hc => ht (List.cons.inj hc).2
        | .isFalse hv => .isFalse fun hc => hv (congrArg Prod.snd (List.cons.inj hc).1)
      else .isFalse fun hc => hk (congrArg Prod.fst (List.cons.inj hc).1)

end

instance : DecidableEq JVal := JVal.decEq

/-- Python exception classes that the source distinguishes in `except` clauses. -/
inductive PyErr where
  | attrErr : PyErr
  | keyErr : PyErr
  | typeErr : PyErr
  | valueErr : PyErr
  | indexErr : PyErr
  deriving DecidableEq

abbrev EM := Except PyErr

/-- Last binding of a key in a JSON object (json.load keeps the last duplicate). -/
def lookupLast : List (String × JVal) → String → Option JVal
  | [], _ => none
  | (k', v) :: rest, k =>
      match lookupLast rest k with
      | some w => some w
      | none => if k' = k then some v else none

/-- Lookup in an association list with unique keys (a Python dict value). -/
def dlookup {α β : Type} [DecidableEq α] : List (α × β) → α → Option β
  | [], _ => none
  | (k', v) :: rest, k => if k' = k then some v else dlookup rest k

/-- Python dict assignment: overwrite the binding if the key is present,
otherwise append it (insertion order is preserved). -/
def dinsert {α β : Type} [DecidableEq α] (d : List (α × β)) (k : α) (v : β) : List (α × β) :=
  if d.any (fun p => p.1 = k) then d.map (fun p => if p.1 = k then (k, v) else p)
  else d ++ [(k, v)]

/-- Python truthiness of a JSON value. -/
def pyTruthy : JVal → Bool
  | .null => false
  | .bool b => b
  | .num q => q ≠ 0
  | .str s => s ≠ ""
  | .arr xs => !xs.isEmpty
  | .obj kvs => !kvs.isEmpty

/-- Python `str()` of a JSON value, as used in f-string interpolation.
Container reprs are abbreviated; only the string and default cases are
exercised by the importer's `process_id` construction. -/
def pyStr : JVal → String
  | .str s => s
  | .null => "None"
  | .bool b => if b then "True" else "False"
  | .num q => toString q
  | .arr _ => "<list>"
  | .obj _ => "<dict>"

/-- Python `x.get(k, d)`: `AttributeError` when the receiver is not a dict. -/
def pyGet (v : JVal) (k : String) (d : JVal) : EM JVal :=
  match v with
  | .obj kvs => .ok ((lookupLast kvs k).getD d)
  | _ => .error .attrErr

/-- Python `x[k]` with a string key: `KeyError` when absent, `TypeError`
when the receiver is not a dict. -/
def pyIndex (v : JVal) (k : String) : EM JVal :=
  match v with
  | .obj kvs =>
      match lookupLast kvs k with
      | some w => .ok w
      | none => .error .keyErr
  | _ => .error .typeErr

/-- Python `x[i]` with an integer index. -/
def pyNth (v : JVal) (i : Nat) : EM JVal :=
  match v with
  | .arr xs =>
      match xs.get? i with
      | some w => .ok w
      | none => .error .indexErr
  | .str s =>
      match s.toList.get? i with
      | some c => .ok (.str (String.mk [c]))
      | none => .error .indexErr
  | .obj _ => .error .keyErr
  | _ => .error .typeErr

/-- Python `for x in v`: lists yield elements, dicts yield keys, strings
yield characters; other values raise `TypeError`. -/
def pyIter : JVal → EM (List JVal)
  | .arr xs => .ok xs
  | .obj kvs => .ok (kvs.map (fun p => .str p.1))
  | .str s => .ok (s.toList.map (fun c => .str (String.mk [c])))
  | _ => .error .typeErr

/-- Python `sep.join(parts)`: `TypeError` when a part is not a string. -/
def pyJoinStr (sep : String) : List JVal → EM String
  | [] => .ok ""
  | [x] =>
      match x with
      | .str s => .ok s
      | _ => .error .typeErr
  | x :: rest =>
      match x with
      | .str s => (pyJoinStr sep rest).map (fun r => s ++ sep ++ r)
      | _ => .error .typeErr

/-- Leading and trailing whitespace removal over the character list
(the kernel-reducible model of Python `str.strip` / Lean `String.trim`). -/
def trimChars (cs : List Char) : List Char :=
  ((cs.dropWhile fun c => c.isWhitespace).reverse.dropWhile fun c => c.isWhitespace).reverse

/-- Characterwise lowercasing (the kernel-reducible model of `str.lower`). -/
def toLowerStr (s : String) : String := String.mk (s.toList.map Char.toLower)

def digitsToNat (ds : List Char) : Nat :=
  ds.foldl (fun a c => a * 10 + (c.toNat - 48)) 0

def allDigits (ds : List Char) : Bool := ds.all Char.isDigit

/-- Model of Python `int(s)` on strings: optional surrounding whitespace,
optional sign, a non-empty run of digits. -/
def strToInt? (s : String) : Option Int :=
  let t := trimChars s.toList
  let signed : Int × List Char :=
    match t with
    | '+' :: r => (1, r)
    | '-' :: r => (-1, r)
    | r => (1, r)
  if signed.2 ≠ [] ∧ allDigits signed.2 then some (signed.1 * digitsToNat signed.2) else none

/-- Model of Python `float(s)` on strings: optional sign, decimal digits with
an optional fractional part (exponent forms are not modelled; no claim
depends on them). -/
def parseDecimal? (s : String) : Option ℚ :=
  let t := trimChars s.toList
  let signed : Int × List Char :=
    match t with
    | '+' :: r => (1, r)
    | '-' :: r => (-1, r)
    | r => (1, r)
  let ip := signed.2.takeWhile (fun c => c ≠ '.')
  let rest := signed.2.dropWhile (fun c => c ≠ '.')
  match rest with
  | [] =>
      if ip ≠ [] ∧ allDigits ip then some (mkRat (signed.1 * (digitsToNat ip : Int)) 1)
      else none
  | _ :: fp =>
      if (ip ≠ [] ∨ fp ≠ []) ∧ allDigits ip ∧ allDigits fp then
        some (mkRat (signed.1 * ((digitsToNat ip * 10 ^ fp.length + digitsToNat fp : Nat) : Int))
          (10 ^ fp.length))
      else none

/-- Python `int(x)` truncates rationals toward zero. -/
def pyTrunc (q : ℚ) : Int := if 0 ≤ q then Int.floor q else -Int.floor (-q)

/-- Python `int(x)` on a JSON value: `ValueError` for unparsable strings,
`TypeError` for values of non-numeric type. -/
def pyInt : JVal → EM Int
  | .num q => .ok (pyTrunc q)
  | .str s =>
      match strToInt? s with
      | some n => .ok n
      | none => .error .valueErr
  | .bool b => .ok (if b then 1 else 0)
  | _ => .error .typeErr

/-- Python `float(x)` wrapped by the source's `try/except (ValueError, TypeError)`:
every failure is caught, so the result is an `Option`. -/
def pyFloat? : JVal → Option ℚ
  | .num q => some q
  | .str s => parseDecimal? s
  | .bool b => some (if b then 1 else 0)
  | _ => none

/-! ## Leaf functions of the importer -/

/-- Source lines 85-88.  Collapses a multilingual `[{lang, value}]` array to a
(Python-dict) `lang → value` map; non-list input and non-dict entries are
ignored. -/
def extract_multilang (v : JVal) : List (JVal × JVal) :=
  match v with
  | .arr xs =>
      xs.foldl
        (fun acc e =>
          match e with
          | .obj kvs =>
              dinsert acc ((lookupLast kvs "lang").getD (.str "unknown"))
                ((lookupLast kvs "value").getD .null)
          | _ => acc)
        []
  | _ => []

/-- Python `d.get(k)` on a collapsed multilingual map (default `None`). -/
def mget (d : List (JVal × JVal)) (k : JVal) : JVal := (dlookup d k).getD .null

/-- Source lines 90-103.  The returned value is the UTC instant as epoch
milliseconds (`int(x) / 1000` seconds); `None` for falsy input, and every
`int()` failure is caught by `except (ValueError, TypeError)`. -/
def convert_timestamp (v : JVal) : Option Int :=
  if pyTruthy v then (pyInt v).toOption else none

/-- Days since 1970-01-01 of a proleptic-Gregorian civil date
(Howard Hinnant's `days_from_civil`), used to state what UTC instant an
epoch-seconds count denotes. -/
def daysFromCivil (y m d : Int) : Int :=
  let y1 : Int := if m ≤ 2 then y - 1 else y
  let era : Int := (if 0 ≤ y1 then y1 else y1 - 399).fdiv 400
  let yoe : Int := y1 - era * 400
  let mp : Int := (m + 9) % 12
  let doy : Int := (153 * mp + 2).fdiv 5 + d - 1
  let doe : Int := yoe * 365 + yoe.fdiv 4 - yoe.fdiv 100 + doy
  era * 146097 + doe - 719468

/-- Epoch seconds of a UTC civil timestamp. -/
def epochSecondsOfCivil (y mo d h mi s : Int) : Int :=
  daysFromCivil y mo d * 86400 + h * 3600 + mi * 60 + s

/-- Normalisation used by `translate_text` (source line 59):
`text.replace(",", "").lower().strip()` — a single-character replace with the
empty string removes every comma, so it is a character filter, followed by
lowercasing and whitespace stripping. -/
def cleanText (s : String) : String :=
  String.mk (trimChars ((s.toList.filter fun c => c ≠ ',').map Char.toLower))

/-- Source lines 54-66.  German→English lookup after normalising; falsy
input and unknown terms pass through unchanged.  Truthy non-string input
would raise `AttributeError` at `.replace`.  (The global accumulation of
unresolved terms is a logging side effect and is not modelled.) -/
def translate_text (text : JVal) (tr : List (String × String)) : EM JVal :=
  if pyTruthy text then
    match text with
    | .str s =>
        let cleaned := cleanText s
        match dlookup tr cleaned with
        | some en => .ok (.str en)
        | none => .ok (.str s)
    | _ => .error .attrErr
  else .ok text

/-- Source lines 68-74.  The Python literal is a `set`; its iteration order is
unspecified but fixed within a run.  The embedding fixes the listing order as
the run's order. -/
def target_indicators : List String :=
  ["PERE", "PERM", "PERT", "PENRE", "PENRM", "PENRT", "SM", "RSF", "NRSF", "FW",
   "HWD", "NHWD", "RWD", "CRU", "MFR", "MER", "EEE", "EET",
   "GWP-total", "GWP-biogenic", "GWP-fossil", "GWP-luluc", "ODP", "POCP",
   "AP", "EP-terrestrial", "EP-freshwater", "EP-marine", "WDP",
   "ADPE", "ADPF", "HTP-c", "HTP-nc", "PM", "IR", "ETP-fw", "SQP"]

def isWordChar (c : Char) : Bool := c.isAlphanum || c = '_'

/-- Word-char-ness of the character at position `i` of `text`
(string edges count as non-word, matching `\b` semantics). -/
def wAt (text : List Char) (i : Int) : Bool :=
  if i < 0 then false
  else
    match text.get? i.toNat with
    | some c => isWordChar c
    | none => false

/-- Regex word boundary: it holds at position `i` iff word-char-ness changes there. -/
def boundaryAt (text : List Char) (i : Int) : Bool := wAt text (i - 1) != wAt text i

/-- Case-insensitive literal match of `key` at offset `i` of `text`. -/
def matchChunkB (key text : List Char) (i : Nat) : Bool :=
  decide (i + key.length ≤ text.length) &&
    decide (((text.drop i).take key.length).map Char.toLower = key.map Char.toLower)

/-- Model of `re.search(rf'\b{re.escape(key)}\b', text, re.IGNORECASE)` being
a match, for keys made of word characters and hyphens. -/
def wordBoundMatch (key text : String) : Bool :=
  let k := key.toList
  let t := text.toList
  (List.range (t.length + 1)).any fun i =>
    matchChunkB k t i && boundaryAt t (i : Int) && boundaryAt t ((i : Int) + k.length)

/-- Inner loop of `get_indicator_key`: first candidate (in the run's set
order) whose word-boundary pattern matches the text. -/
def findIndicator (text : String) : Option String :=
  target_indicators.find? fun k => wordBoundMatch k text

/-- Source lines 76-83.  Scans the language variants of a collapsed
multilingual map in insertion order; `re.search` raises `TypeError` on a
non-string variant. -/
def get_indicator_key : List (JVal × JVal) → EM (Option String)
  | [] => .ok none
  | (_, v) :: rest =>
      match v with
      | .str s =>
          match findIndicator s with
          | some k => .ok (some k)
          | none => get_indicator_key rest
      | _ => .error .typeErr

/-- Loop body of `extract_original_epd_url` (source lines 109-114). -/
def origEpdLoop : List JVal → EM JVal
  | [] => .ok .null
  | item :: rest => do
      let n ← pyGet item "name" .null
      if n = .str "referenceToOriginalEPD" then do
        let v ← pyGet item "value" (.obj [])
        let urls ← pyGet v "resourceURLs" (.arr [])
        if pyTruthy urls then pyNth urls 0
        else origEpdLoop rest
      else origEpdLoop rest

/-- Source lines 105-117.  `except (KeyError, TypeError)` degrades those two
exception classes to `None`; `AttributeError` (a `.get` on a non-dict)
propagates. -/
def extract_original_epd_url (data : JVal) : EM JVal :=
  let body : EM JVal := do
    let a ← pyGet data "modellingAndValidation" (.obj [])
    let b ← pyGet a "dataSourcesTreatmentAndRepresentativeness" (.obj [])
    let c ← pyGet b "other" (.obj [])
    let anies ← pyGet c "anies" (.arr [])
    let items ← pyIter anies
    origEpdLoop items
  match body with
  | .error .keyErr => .ok .null
  | .error .typeErr => .ok .null
  | other => other

/-! ## The normalized record produced by `parse_json` -/

structure ClassRow where
  name : JVal
  level : JVal
  classId : JVal
  classification : JVal
  deriving DecidableEq

structure ModuleData where
  amount : Option ℚ
  scenario : JVal
  deriving DecidableEq

structure ExchangeRec where
  data_set_internal_id : JVal
  reference_to_flow : JVal
  uri : JVal
  ref_object_id : JVal
  flow : List (JVal × JVal)
  indicator_key : Option String
  direction : JVal
  meanAmount : JVal
  unit : JVal
  module_amounts : List (JVal × ModuleData)
  deriving DecidableEq

structure LciaRec where
  method : List (JVal × JVal)
  indicator_key : Option String
  meanAmount : JVal
  unit : JVal
  module_amounts : List (JVal × ModuleData)
  deriving DecidableEq

structure FlowPropRec where
  name_en : JVal
  name_de : JVal
  mean_value : JVal
  unit : JVal
  is_reference : JVal
  data_set_internal_id : JVal
  deriving DecidableEq

structure MatPropRec where
  value : JVal
  units : JVal
  description : JVal
  deriving DecidableEq

structure RefFlowRec where
  material_properties : List (JVal × MatPropRec)
  flow_properties : List FlowPropRec
  deriving DecidableEq

structure ReviewRec where
  reviewers : List JVal
  details : List (JVal × JVal)
  deriving DecidableEq

structure ComplianceRec where
  system : List (JVal × JVal)
  approval : JVal
  deriving DecidableEq

structure AdminInfoRec where
  generator : List (JVal × JVal)
  entry_by : List (JVal × JVal)
  timestamp : Option Int
  formats : List JVal
  version : JVal
  license : JVal
  access : List (JVal × JVal)
  deriving DecidableEq

structure GeographyRec where
  location : JVal
  description : List (JVal × JVal)
  deriving DecidableEq

structure SafetyMarginsRec where
  margin : JVal
  description : List (JVal × JVal)
  deriving DecidableEq

structure ParsedRecord where
  process_id : String
  uuid : JVal
  version : JVal
  name : List (JVal × JVal)
  description : List (JVal × JVal)
  category_level_1 : JVal
  category_level_2 : JVal
  category_level_3 : JVal
  classifications : List ClassRow
  reference_year : JVal
  valid_until : JVal
  time_representativeness : List (JVal × JVal)
  safety_margins : SafetyMarginsRec
  geography : GeographyRec
  technology_description : List (JVal × JVal)
  tech_applicability : List (JVal × JVal)
  dataset_type : JVal
  dataset_subtype : JVal
  sources : String
  use_advice : List (JVal × JVal)
  reviews : List ReviewRec
  compliances : List ComplianceRec
  admin_info : AdminInfoRec
  exchanges : List ExchangeRec
  lcia_results : List LciaRec
  reference_flow : List RefFlowRec
  original_epd_url : JVal
  deriving DecidableEq

/-! ## Section functions of `parse_json` -/

/-- Source lines 123-125: the identity anchors.  Every access uses `.get`
with a default (empty string for `UUID` and `dataSetVersion`, empty dict for
the containers), so a missing key never raises here; only a non-dict
container would (`AttributeError`). -/
def parseProcessId (data : JVal) : EM (String × JVal × JVal) := do
  let p0 ← pyGet data "processInformation" (.obj [])
  let d0 ← pyGet p0 "dataSetInformation" (.obj [])
  let uuid ← pyGet d0 "UUID" (.str "")
  let a0 ← pyGet data "administrativeInformation" (.obj [])
  let po0 ← pyGet a0 "publicationAndOwnership" (.obj [])
  let ver ← pyGet po0 "dataSetVersion" (.str "")
  .ok (pyStr uuid ++ "_" ++ pyStr ver, uuid, ver)

/-- Source line 150: first `anies` entry named `subType`, else `None`. -/
def findSubType : List JVal → EM JVal
  | [] => .ok .null
  | el :: rest => do
      let n ← pyGet el "name" .null
      if n = .str "subType" then pyIndex el "value"
      else findSubType rest

/-- Source lines 152-156 and 164: `el["shortDescription"][0]["value"]` for
every element whose `shortDescription` is truthy (the same comprehension
shape is used for sources and for reviewer names). -/
def sourcesParts : List JVal → EM (List JVal)
  | [] => .ok []
  | el :: rest => do
      let sd ← pyGet el "shortDescription" .null
      if pyTruthy sd then do
        let first ← pyNth sd 0
        let v ← pyIndex first "value"
        let tail ← sourcesParts rest
        .ok (v :: tail)
      else sourcesParts rest

/-- Source lines 162-165. -/
def reviewsLoop : List JVal → EM (List ReviewRec)
  | [] => .ok []
  | r :: rest => do
      let refs ← pyGet r "referenceToNameOfReviewerAndInstitution" (.arr [])
      let rl ← pyIter refs
      let rs ← sourcesParts rl
      let tail ← reviewsLoop rest
      .ok ({ reviewers := rs, details := [] } :: tail)

/-- Source lines 167-171. -/
def compliancesLoop : List JVal → EM (List ComplianceRec)
  | [] => .ok []
  | c :: rest => do
      let rcs ← pyGet c "referenceToComplianceSystem" (.obj [])
      let short ← pyGet rcs "shortDescription" (.arr [])
      let tail ← compliancesLoop rest
      .ok ({ system := extract_multilang short, approval := .null } :: tail)

/-- First dict in the list carrying a `value` key, and that value
(source lines 180-181 and 209-212 share this shape). -/
def descFirstValue : List JVal → Option JVal
  | [] => none
  | d :: rest =>
      match d with
      | .obj kvs =>
          match lookupLast kvs "value" with
          | some w => some w
          | none => descFirstValue rest
      | _ => descFirstValue rest

/-- Source lines 179-182: one entry of the `formats` list. -/
def formatOf (fmt : JVal) : EM JVal := do
  let sd ← pyGet fmt "shortDescription" (.arr [])
  let dl ← pyIter sd
  .ok ((descFirstValue dl).getD .null)

/-- Source lines 173-186. -/
def parseAdminInfo (data : JVal) : EM AdminInfoRec := do
  let admin ← pyGet data "administrativeInformation" (.obj [])
  let entry ← pyGet admin "dataEntryBy" (.obj [])
  let dg ← pyGet admin "dataGenerator" (.obj [])
  let genList ← pyGet dg "referenceToPersonOrEntityGeneratingTheDataSet" (.arr [.obj []])
  let g0 ← pyNth genList 0
  let gsd ← pyGet g0 "shortDescription" (.arr [])
  let ebList ← pyGet entry "referenceToDataSetFormat" (.arr [.obj []])
  let e0 ← pyNth ebList 0
  let esd ← pyGet e0 "shortDescription" (.arr [])
  let ts ← pyGet entry "timeStamp" .null
  let fmtsV ← pyGet entry "referenceToDataSetFormat" (.arr [])
  let fl ← pyIter fmtsV
  let fmts ← fl.mapM formatOf
  let pub ← pyGet admin "publicationAndOwnership" (.obj [])
  let ver ← pyGet pub "dataSetVersion" .null
  let lic ← pyGet pub "licenseType" .null
  let acc ← pyGet pub "accessRestrictions" (.arr [])
  .ok { generator := extract_multilang gsd, entry_by := extract_multilang esd,
        timestamp := convert_timestamp ts, formats := fmts, version := ver, license := lic,
        access := extract_multilang acc }

/-- Source lines 190-196 (inner `class` loop). -/
def classInner (cname : JVal) : List JVal → EM (List ClassRow)
  | [] => .ok []
  | cv :: rest => do
      let lv ← pyGet cv "level" (.str "")
      let cid ← pyGet cv "classId" (.str "")
      let v ← pyGet cv "value" .null
      let tail ← classInner cname rest
      .ok ({ name := cname, level := lv, classId := cid, classification := v } :: tail)

/-- Source lines 189-196 (outer `classification` loop). -/
def classOuter : List JVal → EM (List ClassRow)
  | [] => .ok []
  | c :: rest => do
      let cname ← pyGet c "name" .null
      let inner ← pyGet c "class" (.arr [])
      let il ← pyIter inner
      let rows ← classInner cname il
      let tail ← classOuter rest
      .ok (rows ++ tail)

/-- Source lines 188-196. -/
def classRows (dsi : JVal) : EM (List ClassRow) := do
  let ci ← pyGet dsi "classificationInformation" (.obj [])
  let cls ← pyGet ci "classification" (.arr [])
  let cl ← pyIter cls
  classOuter cl

/-- Source lines 204-212: the unit extraction loop over `other.anies`.
Each entry named `referenceToUnitGroupDataSet` whose `value` is a dict with a
`shortDescription` key overwrites `unit` with the first inner dict's `value`
(the `break` leaves only the inner loop, so a later qualifying entry wins). -/
def unitLoop : List JVal → JVal → EM JVal
  | [], u => .ok u
  | item :: rest, u => do
      let n ← pyGet item "name" .null
      if n = .str "referenceToUnitGroupDataSet" then do
        let uv ← pyGet item "value" .null
        match uv with
        | .obj kvs =>
            match lookupLast kvs "shortDescription" with
            | some sdv => do
                let ds ← pyIter sdv
                unitLoop rest ((descFirstValue ds).getD u)
            | none => unitLoop rest u
        | _ => unitLoop rest u
      else unitLoop rest u

/-- Source lines 216-223: amount of one module entry; a missing or
empty-string `value`, or a parse failure, yields `None`. -/
def moduleAmountOf (kvs : List (String × JVal)) : Option ℚ :=
  match lookupLast kvs "value" with
  | none => none
  | some w => if w = .str "" then none else pyFloat? w

/-- Source lines 213-228 and (verbatim duplicate) 256-271: the module-amount
loop over `other.anies`.  `module_amounts[x.get("module")] = ...` is a dict
assignment, so a later entry with the same module key overwrites the earlier
one.  Elements are dicts by the time this loop runs (the unit loop has already
called `.get` on every element). -/
def moduleLoop : List JVal → List (JVal × ModuleData) → EM (List (JVal × ModuleData))
  | [], m => .ok m
  | x :: rest, m =>
      match x with
      | .obj kvs =>
          if (lookupLast kvs "module").isSome then
            moduleLoop rest
              (dinsert m ((lookupLast kvs "module").getD .null)
                { amount := moduleAmountOf kvs, scenario := (lookupLast kvs "scenario").getD (.str "") })
          else moduleLoop rest m
      | _ => .error .typeErr

/-- Source lines 199-240: one exchange entry. -/
def parseExchange (ex : JVal) : EM ExchangeRec := do
  let rtf ← pyGet ex "referenceToFlowDataSet" (.obj [])
  let sd ← pyGet rtf "shortDescription" (.arr [])
  let flow := extract_multilang sd
  let ik ← get_indicator_key flow
  let direction ← pyGet ex "exchange direction" .null
  let meanA ← pyGet ex "meanAmount" .null
  let other ← pyGet ex "other" (.obj [])
  let anies ← pyGet other "anies" (.arr [])
  let items ← pyIter anies
  let unit ← unitLoop items .null
  let mam ← moduleLoop items []
  let dsid ← pyGet ex "dataSetInternalID" .null
  let uri ← pyGet rtf "uri" .null
  let roid ← pyGet rtf "refObjectId" .null
  .ok { data_set_internal_id := dsid, reference_to_flow := .null, uri := uri,
        ref_object_id := roid, flow := flow, indicator_key := ik, direction := direction,
        meanAmount := meanA, unit := unit, module_amounts := mam }

/-- The raw `data.get("exchanges", {}).get("exchange", [])` list. -/
def exchangeItems (data : JVal) : EM (List JVal) := do
  let e0 ← pyGet data "exchanges" (.obj [])
  let e1 ← pyGet e0 "exchange" (.arr [])
  pyIter e1

/-- Source lines 198-240. -/
def parseExchanges (data : JVal) : EM (List ExchangeRec) := do
  let items ← exchangeItems data
  items.mapM parseExchange

/-- Source lines 243-279: one LCIA result entry. -/
def parseLciaOne (lcia : JVal) : EM LciaRec := do
  let rm ← pyGet lcia "referenceToLCIAMethodDataSet" (.obj [])
  let sd ← pyGet rm "shortDescription" (.arr [])
  let method := extract_multilang sd
  let ik ← get_indicator_key method
  let meanA ← pyGet lcia "meanAmount" .null
  let other ← pyGet lcia "other" (.obj [])
  let anies ← pyGet other "anies" (.arr [])
  let items ← pyIter anies
  let unit ← unitLoop items .null
  let mam ← moduleLoop items []
  .ok { method := method, indicator_key := ik, meanAmount := meanA, unit := unit,
        module_amounts := mam }

/-- Source lines 242-279. -/
def parseLcias (data : JVal) : EM (List LciaRec) := do
  let l0 ← pyGet data "LCIAResults" (.obj [])
  let l1 ← pyGet l0 "LCIAResult" (.arr [])
  let items ← pyIter l1
  items.mapM parseLciaOne

/-- Source lines 290-291: `next((n["value"] for n in names if n.get("lang") == lang), None)`. -/
def findLangValue : List JVal → String → EM JVal
  | [], _ => .ok .null
  | n :: rest, lang => do
      let l ← pyGet n "lang" .null
      if l = .str lang then pyIndex n "value" else findLangValue rest lang

/-- Source lines 288-296: one flow-property entry. -/
def parseFlowProp (prop : JVal) : EM FlowPropRec := do
  let names ← pyGet prop "name" (.arr [])
  let nl ← pyIter names
  let ne ← findLangValue nl "en"
  let nd ← findLangValue nl "de"
  let mv ← pyGet prop "meanValue" .null
  let un ← pyGet prop "referenceUnit" .null
  let ir ← pyGet prop "referenceFlowProperty" (.bool false)
  let did ← pyGet prop "uuid" .null
  .ok { name_en := ne, name_de := nd, mean_value := mv, unit := un, is_reference := ir,
        data_set_internal_id := did }

/-- Source lines 298-302: the material-properties dict comprehension
(`mp['name']`, `mp['value']`, `mp['unit']` are subscripts and raise when
absent; duplicate names overwrite). -/
def matPropsOf : List JVal → List (JVal × MatPropRec) → EM (List (JVal × MatPropRec))
  | [], acc => .ok acc
  | mp :: rest, acc => do
      let k ← pyIndex mp "name"
      let v ← pyIndex mp "value"
      let u ← pyIndex mp "unit"
      let d ← pyGet mp "unitDescription" .null
      matPropsOf rest (dinsert acc k { value := v, units := u, description := d })

/-- Source lines 283-304: the scan over the raw exchange list collecting one
entry per exchange whose `dataSetInternalID` equals the declared reference
flow id. -/
def refFlowLoop (rfid : JVal) : List JVal → List RefFlowRec → EM (List RefFlowRec)
  | [], acc => .ok acc
  | ex :: rest, acc => do
      let dsid ← pyGet ex "dataSetInternalID" .null
      if dsid = rfid then do
        let mp ← pyGet ex "materialProperties" (.arr [])
        let fp ← pyGet ex "flowProperties" (.arr [])
        let fpl ← pyIter fp
        let fps ← fpl.mapM parseFlowProp
        let mpl ← pyIter mp
        let mps ← matPropsOf mpl []
        refFlowLoop rfid rest (acc ++ [{ material_properties := mps, flow_properties := fps }])
      else refFlowLoop rfid rest acc

/-- Source lines 281-304.  The declaration
`data["processInformation"]["quantitativeReference"]["referenceToReferenceFlow"][0]`
is read with subscripts, so a missing or empty declaration raises; the scan
itself appends one entry per matching exchange and never raises on zero or
multiple matches. -/
def parseReferenceFlow (data : JVal) : EM (List RefFlowRec) := do
  let pi0 ← pyIndex data "processInformation"
  let qr ← pyIndex pi0 "quantitativeReference"
  let rr ← pyIndex qr "referenceToReferenceFlow"
  let rfid ← pyNth rr 0
  let items ← exchangeItems data
  refFlowLoop rfid items []

/-- Source line 312/313: `classification.get("name").lower() == "oekobau.dat"`
(`AttributeError` when the name is not a string). -/
def matchOeko (c : ClassRow) : EM Bool :=
  match c.name with
  | .str s => .ok (decide (toLowerStr s = "oekobau.dat"))
  | _ => .error .attrErr

/-- Source lines 314-324: one step of the inner category loop.  The level is
`int(c.get("level", "0"))` (the stored level, a string built with default "");
the value is always passed through `translate_text`; levels other than 0/1/2
leave the state unchanged. -/
def catStep (tr : List (String × String)) (st : JVal × JVal × JVal) (c : ClassRow) :
    EM (JVal × JVal × JVal) := do
  let lv ← pyInt c.level
  let t ← translate_text c.classification tr
  if lv = 0 then .ok (t, st.2.1, st.2.2)
  else if lv = 1 then .ok (st.1, t, st.2.2)
  else if lv = 2 then .ok (st.1, st.2.1, t)
  else .ok st

/-- Source line 313: the comprehension re-filtering all classifications. -/
def filterOeko : List ClassRow → EM (List ClassRow)
  | [] => .ok []
  | c :: rest => do
      let b ← matchOeko c
      let r ← filterOeko rest
      .ok (if b then c :: r else r)

/-- Source lines 311-324: the outer loop re-runs the complete inner pass for
every matching entry; document order makes the last entry at a level win. -/
def catLoop (tr : List (String × String)) (all : List ClassRow) :
    List ClassRow → (JVal × JVal × JVal) → EM (JVal × JVal × JVal)
  | [], st => .ok st
  | c :: rest, st => do
      let b ← matchOeko c
      if b then do
        let classes ← filterOeko all
        let st2 ← classes.foldlM (catStep tr) st
        catLoop tr all rest st2
      else catLoop tr all rest st

/-- Source lines 119-354: the document parser.  Binds follow source order, so
the first raising access determines the exception, as in Python. -/
def parse_json (data : JVal) (tr : List (String × String)) : EM ParsedRecord := do
  let idv ← parseProcessId data
  let pi0 ← pyIndex data "processInformation"
  let dsi ← pyIndex pi0 "dataSetInformation"
  let nameObj ← pyGet dsi "name" (.obj [])
  let bn ← pyGet nameObj "baseName" (.arr [])
  let gc ← pyGet dsi "generalComment" (.arr [])
  let time0 ← pyGet pi0 "time" (.obj [])
  let reference_year ← pyGet time0 "referenceYear" .null
  let valid_until ← pyGet time0 "dataSetValidUntil" .null
  let geo0 ← pyGet pi0 "geography" (.obj [])
  let geo1 ← pyGet geo0 "locationOfOperationSupplyOrProduction" (.obj [])
  let loc ← pyGet geo1 "location" .null
  let tech ← pyGet pi0 "technology" (.obj [])
  let td ← pyGet tech "technologyDescriptionAndIncludedProcesses" (.arr [])
  let ta ← pyGet tech "technologicalApplicability" (.arr [])
  let mav ← pyIndex data "modellingAndValidation"
  let mi ← pyGet mav "LCIMethodAndAllocation" (.obj [])
  let dst ← pyGet mi "typeOfDataSet" .null
  let mo ← pyGet mi "other" (.obj [])
  let manies ← pyGet mo "anies" (.arr [])
  let mel ← pyIter manies
  let dss ← findSubType mel
  let dstr ← pyGet mav "dataSourcesTreatmentAndRepresentativeness" (.obj [])
  let refs ← pyGet dstr "referenceToDataSource" (.arr [])
  let rl ← pyIter refs
  let parts ← sourcesParts rl
  let sources ← pyJoinStr ", " parts
  let ua ← pyGet dstr "useAdviceForDataSet" (.arr [])
  let oeu ← extract_original_epd_url data
  let vald ← pyGet mav "validation" (.obj [])
  let revs ← pyGet vald "review" (.arr [])
  let rvl ← pyIter revs
  let reviews ← reviewsLoop rvl
  let cd ← pyGet mav "complianceDeclarations" (.obj [])
  let comp ← pyGet cd "compliance" (.arr [])
  let cpl ← pyIter comp
  let compliances ← compliancesLoop cpl
  let adminInfo ← parseAdminInfo data
  let classifications ← classRows dsi
  let exchanges ← parseExchanges data
  let lcias ← parseLcias data
  let refFlow ← parseReferenceFlow data
  let cats ← catLoop tr classifications classifications (.null, .null, .null)
  .ok { process_id := idv.1, uuid := idv.2.1, version := idv.2.2,
        name := extract_multilang bn, description := extract_multilang gc,
        category_level_1 := cats.1, category_level_2 := cats.2.1, category_level_3 := cats.2.2,
        classifications := classifications, reference_year := reference_year,
        valid_until := valid_until, time_representativeness := [],
        safety_margins := { margin := .null, description := [] },
        geography := { location := loc, description := [] },
        technology_description := extract_multilang td, tech_applicability := extract_multilang ta,
        dataset_type := dst, dataset_subtype := dss, sources := sources,
        use_advice := extract_multilang ua, reviews := reviews, compliances := compliances,
        admin_info := adminInfo, exchanges := exchanges, lcia_results := lcias,
        reference_flow := refFlow, original_epd_url := oeu }

/-! ## Relational store (tables written by `store_data_in_db`) -/

structure ProductRow where
  process_id : String
  uuid : JVal
  version : JVal
  name_de : JVal
  name_en : JVal
  category_level_1 : JVal
  category_level_2 : JVal
  category_level_3 : JVal
  description_de : JVal
  description_en : JVal
  reference_year : JVal
  valid_until : JVal
  time_repr_de : JVal
  time_repr_en : JVal
  safety_margin : JVal
  safety_descr_de : JVal
  safety_descr_en : JVal
  geo_location : JVal
  geo_descr_de : JVal
  geo_descr_en : JVal
  tech_descr_de : JVal
  tech_descr_en : JVal
  tech_applic_de : JVal
  tech_applic_en : JVal
  dataset_type : JVal
  dataset_subtype : JVal
  sources : String
  use_advice_de : JVal
  use_advice_en : JVal
  generator_de : JVal
  generator_en : JVal
  entry_by_de : JVal
  entry_by_en : JVal
  admin_version : JVal
  license_type : JVal
  access_de : JVal
  access_en : JVal
  timestamp : Option Int
  formats : String
  original_epd_url : JVal
  datastock_id : Nat
  deriving DecidableEq

structure ClassificationDBRow where
  process_id : String
  name : JVal
  level : JVal
  classId : JVal
  classification : JVal
  deriving DecidableEq

structure ExchangeDBRow where
  exchange_id : Nat
  process_id : String
  flow_de : JVal
  flow_en : JVal
  indicator_key : Option String
  direction : JVal
  meanAmount : JVal
  unit : JVal
  deriving DecidableEq

structure ModuleAmountDBRow where
  parent_id : Nat
  module : JVal
  scenario : JVal
  amount : Option ℚ
  deriving DecidableEq

structure LciaDBRow where
  lcia_id : Nat
  process_id : String
  method_de : JVal
  method_en : JVal
  indicator_key : Option String
  meanAmount : JVal
  unit : JVal
  deriving DecidableEq

structure ReviewDBRow where
  process_id : String
  reviewer : JVal
  detail_de : JVal
  detail_en : JVal
  deriving DecidableEq

structure ComplianceDBRow where
  process_id : String
  system_de : JVal
  system_en : JVal
  approval : JVal
  deriving DecidableEq

structure FlowPropertyDBRow where
  process_id : String
  name_en : JVal
  name_de : JVal
  meanamount : JVal
  unit : JVal
  is_reference : JVal
  deriving DecidableEq

structure MaterialPropertyDBRow where
  process_id : String
  property_id : JVal
  property_name : JVal
  value : Option ℚ
  units : JVal
  description : JVal
  deriving DecidableEq

/-- The database state touched by the importer.  `RETURNING exchange_id` /
`RETURNING lcia_id` are modelled by sequence counters. -/
structure DB where
  products : List ProductRow
  classifications : List ClassificationDBRow
  exchanges : List ExchangeDBRow
  exchange_moduleamounts : List ModuleAmountDBRow
  lcia_results : List LciaDBRow
  lcia_moduleamounts : List ModuleAmountDBRow
  reviews : List ReviewDBRow
  compliances : List ComplianceDBRow
  flow_properties : List FlowPropertyDBRow
  material_properties : List MaterialPropertyDBRow
  nextExchangeId : Nat
  nextLciaId : Nat
  deriving DecidableEq

/-- Source line 363-367 (also duplicated at 663-667): `float(val)` with every
failure caught. -/
def convert_to_float (v : JVal) : Option ℚ := pyFloat? v

/-- Source lines 410-571: the per-record body of `store_data_in_db`.
`none` models an exception escaping to the caller, which rolls the
transaction back (no partial state).  The `SELECT 1 FROM products` check
makes an existing `process_id` skip the whole record. -/
def storeItem (db : DB) (it : ParsedRecord) (ds : Nat) : Option DB :=
  if db.products.any (fun p => p.process_id = it.process_id) then some db
  else
    match (pyJoinStr ", " (it.admin_info.formats.filter pyTruthy)).toOption with
    | none => none
    | some fmtStr =>
      let prow : ProductRow :=
        { process_id := it.process_id, uuid := it.uuid, version := it.version,
          name_de := mget it.name (.str "de"), name_en := mget it.name (.str "en"),
          category_level_1 := it.category_level_1, category_level_2 := it.category_level_2,
          category_level_3 := it.category_level_3,
          description_de := mget it.description (.str "de"),
          description_en := mget it.description (.str "en"),
          reference_year := it.reference_year, valid_until := it.valid_until,
          time_repr_de := mget it.time_representativeness (.str "de"),
          time_repr_en := mget it.time_representativeness (.str "en"),
          safety_margin := it.safety_margins.margin,
          safety_descr_de := mget it.safety_margins.description (.str "de"),
          safety_descr_en := mget it.safety_margins.description (.str "en"),
          geo_location := it.geography.location,
          geo_descr_de := mget it.geography.description (.str "de"),
          geo_descr_en := mget it.geography.description (.str "en"),
          tech_descr_de := mget it.technology_description (.str "de"),
          tech_descr_en := mget it.technology_description (.str "en"),
          tech_applic_de := mget it.tech_applicability (.str "de"),
          tech_applic_en := mget it.tech_applicability (.str "en"),
          dataset_type := it.dataset_type, dataset_subtype := it.dataset_subtype,
          sources := it.sources,
          use_advice_de := mget it.use_advice (.str "de"),
          use_advice_en := mget it.use_advice (.str "en"),
          generator_de := mget it.admin_info.generator (.str "de"),
          generator_en := mget it.admin_info.generator (.str "en"),
          entry_by_de := mget it.admin_info.entry_by (.str "de"),
          entry_by_en := mget it.admin_info.entry_by (.str "en"),
          admin_version := it.admin_info.version, license_type := it.admin_info.license,
          access_de := mget it.admin_info.access (.str "de"),
          access_en := mget it.admin_info.access (.str "en"),
          timestamp := it.admin_info.timestamp, formats := fmtStr,
          original_epd_url := it.original_epd_url, datastock_id := ds }
      let crows := it.classifications.map fun c =>
        ({ process_id := it.process_id, name := c.name, level := c.level,
           classId := c.classId, classification := c.classification } : ClassificationDBRow)
      let exStep := fun (acc : Nat × List ExchangeDBRow × List ModuleAmountDBRow)
          (ex : ExchangeRec) =>
        (acc.1 + 1,
         acc.2.1 ++ [{ exchange_id := acc.1, process_id := it.process_id,
                       flow_de := mget ex.flow (.str "de"), flow_en := mget ex.flow (.str "en"),
                       indicator_key := ex.indicator_key, direction := ex.direction,
                       meanAmount := ex.meanAmount, unit := ex.unit }],
         acc.2.2 ++ ex.module_amounts.map fun p =>
           ({ parent_id := acc.1, module := p.1, scenario := p.2.scenario,
              amount := p.2.amount } : ModuleAmountDBRow))
      let exAcc := it.exchanges.foldl exStep (db.nextExchangeId, [], [])
      let lciaStep := fun (acc : Nat × List LciaDBRow × List ModuleAmountDBRow)
          (lc : LciaRec) =>
        (acc.1 + 1,
         acc.2.1 ++ [{ lcia_id := acc.1, process_id := it.process_id,
                       method_de := mget lc.method (.str "de"),
                       method_en := mget lc.method (.str "en"),
                       indicator_key := lc.indicator_key, meanAmount := lc.meanAmount,
                       unit := lc.unit }],
         acc.2.2 ++ lc.module_amounts.map fun p =>
           ({ parent_id := acc.1, module := p.1, scenario := p.2.scenario,
              amount := p.2.amount } : ModuleAmountDBRow))
      let lciaAcc := it.lcia_results.foldl lciaStep (db.nextLciaId, [], [])
      let rrows := it.reviews.flatMap fun rv => rv.reviewers.map fun r =>
        ({ process_id := it.process_id, reviewer := r,
           detail_de := mget rv.details (.str "de"),
           detail_en := mget rv.details (.str "en") } : ReviewDBRow)
      let corows := it.compliances.map fun c =>
        ({ process_id := it.process_id, system_de := mget c.system (.str "de"),
           system_en := mget c.system (.str "en"), approval := c.approval } : ComplianceDBRow)
      let fprows := it.reference_flow.flatMap fun rf => rf.flow_properties.map fun fp =>
        ({ process_id := it.process_id, name_en := fp.name_en, name_de := fp.name_de,
           meanamount := fp.mean_value, unit := fp.unit,
           is_reference := fp.is_reference } : FlowPropertyDBRow)
      let mprows := it.reference_flow.flatMap fun rf => rf.material_properties.map fun p =>
        ({ process_id := it.process_id, property_id := p.1,
           property_name := .null, value := convert_to_float p.2.value,
           units := p.2.units, description := p.2.description } : MaterialPropertyDBRow)
      some { products := db.products ++ [prow],
             classifications := db.classifications ++ crows,
             exchanges := db.exchanges ++ exAcc.2.1,
             exchange_moduleamounts := db.exchange_moduleamounts ++ exAcc.2.2,
             lcia_results := db.lcia_results ++ lciaAcc.2.1,
             lcia_moduleamounts := db.lcia_moduleamounts ++ lciaAcc.2.2,
             reviews := db.reviews ++ rrows,
             compliances := db.compliances ++ corows,
             flow_properties := db.flow_properties ++ fprows,
             material_properties := db.material_properties ++ mprows,
             nextExchangeId := exAcc.1, nextLciaId := lciaAcc.1 }

/-- Source lines 408-573: `store_data_in_db(collected_data, conn, datastock_id)`.
An exception anywhere aborts the whole call before the final commit; the
caller rolls back, so `none` leaves no partial state. -/
def store_data_in_db (collected_data : List ParsedRecord) (db : DB) (ds : Nat) : Option DB :=
  collected_data.foldlM (fun d it => storeItem d it ds) db

/-! ## Datastock resolver -/

structure DSRow where
  datastock_id : Nat
  name : String
  uuid : String
  deriving DecidableEq

structure DSState where
  rows : List DSRow
  nextId : Nat
  deriving DecidableEq

/-- Source lines 379-406.  `sel` is the table as seen by the initial
`SELECT`, `ins` the table as seen by the `INSERT` (they differ when a
concurrent writer commits in between; single-threaded callers pass the same
state twice).  A duplicate-uuid conflict at insert time raises, is caught by
the blanket `except`, rolls back, and the function returns `None` — the
Python `return None` at line 406 — together with the unchanged table. -/
def get_or_create_datastock (sel ins : DSState) (name uuid : String) :
    Option Nat × DSState :=
  match sel.rows.find? (fun r => r.uuid = uuid) with
  | some r => (some r.datastock_id, ins)
  | none =>
      if ins.rows.any (fun r => r.uuid = uuid) then (none, ins)
      else (some ins.nextId,
            { rows := ins.rows ++ [{ datastock_id := ins.nextId, name := name, uuid := uuid }],
              nextId := ins.nextId + 1 })

/-! ## Concrete documents and predicates used by the verification -/

/-- A document whose `dataSetInformation` object carries no `UUID` binding,
with every structurally required container present. -/
def docNoUuid : JVal := .obj
  [("processInformation", .obj
      [("dataSetInformation", .obj []),
       ("quantitativeReference", .obj [("referenceToReferenceFlow", .arr [.num 1])])]),
   ("modellingAndValidation", .obj [])]

/-- A document whose declared reference-flow internal ID (1) matches none of
its exchanges (the single exchange has internal ID 2). -/
def docRefMiss : JVal := .obj
  [("processInformation", .obj
      [("dataSetInformation", .obj [("UUID", .str "u1")]),
       ("quantitativeReference", .obj [("referenceToReferenceFlow", .arr [.num 1])])]),
   ("modellingAndValidation", .obj []),
   ("administrativeInformation", .obj
      [("publicationAndOwnership", .obj [("dataSetVersion", .str "v1")])]),
   ("exchanges", .obj [("exchange", .arr [.obj [("dataSetInternalID", .num 2)]])])]

/-- Does a raw exchange entry match the declared reference flow id in the
source's scan (`ex.get("dataSetInternalID") == reference_flow_id`)? -/
def exMatchesB (rfid : JVal) (ex : JVal) : Bool :=
  match pyGet ex "dataSetInternalID" .null with
  | .ok d => decide (d = rfid)
  | .error _ => false

/-- Does a classification row belong to the "oekobau.dat" system
(case-insensitive), per source line 312? -/
def isOekoB (c : ClassRow) : Bool :=
  match c.name with
  | .str s => decide (toLowerStr s = "oekobau.dat")
  | _ => false

/-- The integer level of a classification row when `int()` succeeds. -/
def levelOf? (c : ClassRow) : Option Int := (pyInt c.level).toOption

/-- Relation between one output category slot and the classification rows:
the slot holds the translated value of the last row at integer level `i`
(in document order), or keeps the base value when no row has that level. -/
def catProj (tr : List (String × String)) (classes : List ClassRow) (i : Int)
    (base res : JVal) : Prop :=
  match (classes.filter (fun c => levelOf? c = some i)).getLast? with
  | some c => translate_text c.classification tr = .ok res
  | none => res = base

/-- Does an extension entry carry lifecycle module `m`? -/
def isModuleEntryFor (m : JVal) (x : JVal) : Bool :=
  match x with
  | .obj kvs =>
      match lookupLast kvs "module" with
      | some mv => decide (mv = m)
      | none => false
  | _ => false

/-- The module data the source builds from one extension entry. -/
def moduleDataOf (x : JVal) : ModuleData :=
  match x with
  | .obj kvs =>
      { amount := moduleAmountOf kvs, scenario := (lookupLast kvs "scenario").getD (.str "") }
  | _ => { amount := none, scenario := .str "" }

/-- The unit rule's trigger (source line 206). -/
def unitRule (e : JVal) : Bool :=
  match e with
  | .obj kvs => decide ((lookupLast kvs "name").getD .null = .str "referenceToUnitGroupDataSet")
  | _ => false

/-- The module rule's trigger (source line 215). -/
def moduleRule (e : JVal) : Bool :=
  match e with
  | .obj kvs => (lookupLast kvs "module").isSome
  | _ => false

/-- The original-source-URL rule's trigger (source line 110). -/
def origEpdRule (e : JVal) : Bool :=
  match e with
  | .obj kvs => decide ((lookupLast kvs "name").getD .null = .str "referenceToOriginalEPD")
  | _ => false

/-- An extension entry that carries both the unit-rule name and a module key:
it satisfies two of the three extraction rules at once. -/
def entUnitAndModule : JVal := .obj
  [("name", .str "referenceToUnitGroupDataSet"),
   ("value", .obj [("shortDescription", .arr [.obj [("value", .str "kg")]])]),
   ("module", .str "A1")]

/-- Does a multilingual source entry collapse onto language key `L`? -/
def mlEntryFor (L : JVal) (e : JVal) : Bool :=
  match e with
  | .obj kvs => decide ((lookupLast kvs "lang").getD (.str "unknown") = L)
  | _ => false

/-- The value a multilingual source entry contributes. -/
def mlValueOf (e : JVal) : JVal :=
  match e with
  | .obj kvs => (lookupLast kvs "value").getD .null
  | _ => .null

/-- A minimal parsed record used to exercise the persistence writer. -/
def itemW : ParsedRecord :=
  { process_id := "u1_v1", uuid := .str "u1", version := .str "v1", name := [],
    description := [], category_level_1 := .null, category_level_2 := .null,
    category_level_3 := .null, classifications := [], reference_year := .null,
    valid_until := .null, time_representativeness := [],
    safety_margins := { margin := .null, description := [] },
    geography := { location := .null, description := [] },
    technology_description := [], tech_applicability := [], dataset_type := .null,
    dataset_subtype := .null, sources := "", use_advice := [], reviews := [],
    compliances := [],
    admin_info := { generator := [], entry_by := [], timestamp := none, formats := [],
                    version := .null, license := .null, access := [] },
    exchanges := [], lcia_results := [], reference_flow := [], original_epd_url := .null }

/-- An empty database. -/
def dbW : DB :=
  { products := [], classifications := [], exchanges := [], exchange_moduleamounts := [],
    lcia_results := [], lcia_moduleamounts := [], reviews := [], compliances := [],
    flow_properties := [], material_properties := [], nextExchangeId := 0, nextLciaId := 0 }

/-- The database after importing `itemW` into `dbW`. -/
def dbW2 : DB := (store_data_in_db [itemW] dbW 0).getD dbW

/-- Is the variant text of a multilingual entry a string? -/
def isStrVariant (p : JVal × JVal) : Bool :=
  match p.2 with
  | .str _ => true
  | _ => false

/-- Does the variant text contain candidate `K` as a whole word? -/
def variantMatches (K : String) (p : JVal × JVal) : Bool :=
  match p.2 with
  | .str s => wordBoundMatch K s
  | _ => false

/-- Does the variant text match no candidate other than `K`? -/
def variantOnlyMatches (K : String) (p : JVal × JVal) : Bool :=
  target_indicators.all fun k =>
    decide (k = K) ||
      (match p.2 with
       | .str s => !wordBoundMatch k s
       | _ => true)

/-- Is the variant a string matched by no candidate at all? -/
def variantMatchesNone (p : JVal × JVal) : Bool :=
  match p.2 with
  | .str s => target_indicators.all fun k => !wordBoundMatch k s
  | _ => false

/-- Two extension entries carrying the same module code A1: the second one
must win for both amount and scenario. -/
def itemsSameModule : List JVal :=
  [.obj [("module", .str "A1"), ("value", .str "1.5"), ("scenario", .str "S1")],
   .obj [("module", .str "A1"), ("value", .str "2.5")]]

/-- The module-amount map the source builds from `itemsSameModule`. -/
def mamSameModule : List (JVal × ModuleData) :=
  [(.str "A1", { amount := some (mkRat 5 2), scenario := .str "" })]

/-- A one-entry translation table. -/
def trW : List (String × String) := [("beton", "concrete")]

/-- Three classification rows: two "oekobau.dat" rows at level 0 (the last
carries a translatable German term) and one row of another system. -/
def clsW : List ClassRow :=
  [{ name := .str "OEKOBAU.DAT", level := .str "0", classId := .str "",
     classification := .str "Holz" },
   { name := .str "oekobau.dat", level := .str "0", classId := .str "",
     classification := .str "Beton" },
   { name := .str "other", level := .str "1", classId := .str "", classification := .str "X" }]

/-- A multilingual map whose only variant contains the standalone token
GWP-total and no other canonical token. -/
def gwpVariant : List (JVal × JVal) :=
  [(.str "en", .str "includes GWP-total figure")]

/-- The `processInformation` object of `docNoUuid`. -/
def piNoUuid : JVal := .obj
  [("dataSetInformation", .obj []),
   ("quantitativeReference", .obj [("referenceToReferenceFlow", .arr [.num 1])])]

/-- The record `parse_json` produces for `docNoUuid`. -/
def recNoUuid : ParsedRecord := (parse_json docNoUuid []).toOption.getD itemW

/-- The record `parse_json` produces for `docRefMiss`. -/
def recRefMiss : ParsedRecord := (parse_json docRefMiss []).toOption.getD itemW

/-! ## Helper lemmas -/

theorem EM.bind_ok_elim {α β : Type} {x : EM α} {f : α → EM β} {b : β}
    (h : (x >>= f) = .ok b) : ∃ a, x = .ok a ∧ f a = .ok b := by
  cases x with
  | ok a => exact ⟨a, rfl, h⟩
  | error e => simp [Bind.bind, Except.bind] at h

theorem dlookup_nil {β : Type} (k : JVal) : dlookup ([] : List (JVal × β)) k = none := rfl

theorem dlookup_cons {β : Type} (a : JVal) (b : β) (l : List (JVal × β)) (k : JVal) :
    dlookup ((a, b) :: l) k = if a = k then some b else dlookup l k := rfl

theorem any_false_of_cons {β : Type} {a : JVal} {b : β} {rest : List (JVal × β)} {k : JVal}
    (h : (((a, b) :: rest).any fun q => q.1 = k) = false) :
    a ≠ k ∧ (rest.any fun q => q.1 = k) = false := by
  rw [List.any_cons, Bool.or_eq_false_iff] at h
  exact ⟨by simpa using h.1, h.2⟩

theorem any_true_tail {β : Type} {a : JVal} {b : β} {rest : List (JVal × β)} {k : JVal}
    (h : (((a, b) :: rest).any fun q => q.1 = k) = true) (hk : a ≠ k) :
    (rest.any fun q => q.1 = k) = true := by
  rw [List.any_cons, Bool.or_eq_true] at h
  rcases h with h | h
  · exact absurd (by simpa using h) hk
  · exact h

theorem dlookup_map_overwrite_self {β : Type} (d : List (JVal × β)) (k : JVal) (v : β)
    (h : (d.any fun q => q.1 = k) = true) :
    dlookup (d.map (fun p => if p.1 = k then (k, v) else p)) k = some v := by
  induction d with
  | nil => simp at h
  | cons p rest ih =>
      obtain ⟨a, b⟩ := p
      rw [List.map_cons]
      by_cases hk : a = k
      · rw [show (if ((a, b) : JVal × β).1 = k then (k, v) else (a, b)) = (k, v) from if_pos hk]
        rw [dlookup_cons, if_pos rfl]
      · rw [show (if ((a, b) : JVal × β).1 = k then (k, v) else (a, b)) = (a, b) from if_neg hk]
        rw [dlookup_cons, if_neg hk]
        exact ih (any_true_tail h hk)

theorem dlookup_map_overwrite_ne {β : Type} (d : List (JVal × β)) (k k2 : JVal) (v : β)
    (hne : k2 ≠ k) :
    dlookup (d.map (fun p => if p.1 = k then (k, v) else p)) k2 = dlookup d k2 := by
  induction d with
  | nil => rfl
  | cons p rest ih =>
      obtain ⟨a, b⟩ := p
      rw [List.map_cons]
      by_cases hk : a = k
      · rw [show (if ((a, b) : JVal × β).1 = k then (k, v) else (a, b)) = (k, v) from if_pos hk]
        rw [dlookup_cons, dlookup_cons, if_neg (fun hc => hne hc.symm),
          if_neg (fun hc : a = k2 => hne (hc ▸ hk ▸ rfl))]
        exact ih
      · rw [show (if ((a, b) : JVal × β).1 = k then (k, v) else (a, b)) = (a, b) from if_neg hk]
        rw [dlookup_cons, dlookup_cons]
        by_cases hp2 : a = k2
        · rw [if_pos hp2, if_pos hp2]
        · rw [if_neg hp2, if_neg hp2]
          exact ih

theorem dlookup_append_self {β : Type} (d : List (JVal × β)) (k : JVal) (v : β)
    (h : (d.any fun q => q.1 = k) = false) :
    dlookup (d ++ [(k, v)]) k = some v := by
  induction d with
  | nil => rw [List.nil_append, dlookup_cons, if_pos rfl]
  | cons p rest ih =>
      obtain ⟨a, b⟩ := p
      obtain ⟨hk, hrest⟩ := any_false_of_cons h
      rw [List.cons_append, dlookup_cons, if_neg hk]
      exact ih hrest

theorem dlookup_append_ne {β : Type} (d : List (JVal × β)) (k k2 : JVal) (v : β)
    (hne : k2 ≠ k) :
    dlookup (d ++ [(k, v)]) k2 = dlookup d k2 := by
  induction d with
  | nil =>
      rw [List.nil_append, dlookup_cons, if_neg (fun hc => hne hc.symm)]
  | cons p rest ih =>
      obtain ⟨a, b⟩ := p
      rw [List.cons_append, dlookup_cons, dlookup_cons]
      by_cases hp2 : a = k2
      · rw [if_pos hp2, if_pos hp2]
      · rw [if_neg hp2, if_neg hp2]
        exact ih

theorem dlookup_dinsert_self {β : Type} (d : List (JVal × β)) (k : JVal) (v : β) :
    dlookup (dinsert d k v) k = some v := by
  by_cases h : (d.any fun q => q.1 = k) = true
  · rw [dinsert, if_pos h]
    exact dlookup_map_overwrite_self d k v h
  · have h2 : (d.any fun q => q.1 = k) = false := by
      cases hx : (d.any fun q => q.1 = k) with
      | false => rfl
      | true => exact absurd hx h
    rw [dinsert, if_neg (by rw [h2]; exact Bool.false_ne_true)]
    exact dlookup_append_self d k v h2

theorem dlookup_dinsert_ne {β : Type} (d : List (JVal × β)) (k k2 : JVal) (v : β)
    (hne : k2 ≠ k) : dlookup (dinsert d k v) k2 = dlookup d k2 := by
  by_cases h : (d.any fun q => q.1 = k) = true
  · rw [dinsert, if_pos h]
    exact dlookup_map_overwrite_ne d k k2 v hne
  · have h2 : (d.any fun q => q.1 = k) = false := by
      cases hx : (d.any fun q => q.1 = k) with
      | false => rfl
      | true => exact absurd hx h
    rw [dinsert, if_neg (by rw [h2]; exact Bool.false_ne_true)]
    exact dlookup_append_ne d k k2 v hne

theorem dinsert_keys_nodup {β : Type} (d : List (JVal × β)) (k : JVal) (v : β)
    (h : (d.map Prod.fst).Nodup) : ((dinsert d k v).map Prod.fst).Nodup := by
  by_cases hany : (d.any fun q => q.1 = k) = true
  · have hmap : (d.map (fun p => if p.1 = k then (k, v) else p)).map Prod.fst
        = d.map Prod.fst := by
      rw [List.map_map]
      refine List.map_congr_left ?_
      intro p _
      by_cases hp : p.1 = k
      · show (if p.1 = k then (k, v) else p).1 = p.1
        rw [if_pos hp]
        exact hp.symm
      · show (if p.1 = k then (k, v) else p).1 = p.1
        rw [if_neg hp]
    rw [dinsert, if_pos hany, hmap]
    exact h
  · have h2 : (d.any fun q => q.1 = k) = false := by
      cases hx : (d.any fun q => q.1 = k) with
      | false => rfl
      | true => exact absurd hx hany
    have hk : k ∉ d.map Prod.fst := by
      intro hc
      obtain ⟨p, hp, hpk⟩ := List.mem_map.1 hc
      have hx : (d.any fun q => decide (q.1 = k)) = true :=
        List.any_eq_true.2 ⟨p, hp, by simp [hpk]⟩
      rw [h2] at hx
      exact Bool.false_ne_true hx
    rw [dinsert, if_neg (by rw [h2]; exact Bool.false_ne_true), List.map_append]
    refine List.Nodup.append h (by simp) ?_
    intro x hx1 hx2
    simp only [List.map_cons, List.map_nil, List.mem_singleton] at hx2
    subst hx2
    exact hk hx1

theorem filter_getLast_cons {α : Type} (p : α → Bool) (x : α) (l : List α) :
    ((x :: l).filter p).getLast? =
      match (l.filter p).getLast? with
      | some y => some y
      | none => if p x then some x else none := by
  by_cases hp : p x
  · rw [List.filter_cons_of_pos hp]
    cases hl : l.filter p with
    | nil => simp [hl, hp]
    | cons y ys =>
        rw [List.getLast?_cons_cons]
        cases hys : (y :: ys).getLast? with
        | none => simp at hys
        | some z => rfl
  · rw [List.filter_cons_of_neg (by simpa using hp)]
    cases hl : (l.filter p).getLast? with
    | none => simp [hp]
    | some y => rfl

theorem ml_foldl_lookup (xs : List JVal) (acc : List (JVal × JVal)) (L : JVal) :
    dlookup (xs.foldl (fun acc e =>
      match e with
      | .obj kvs =>
          dinsert acc ((lookupLast kvs "lang").getD (.str "unknown"))
            ((lookupLast kvs "value").getD .null)
      | _ => acc) acc) L =
      match (xs.filter (mlEntryFor L)).getLast? with
      | some e => some (mlValueOf e)
      | none => dlookup acc L := by
  induction xs generalizing acc with
  | nil => rfl
  | cons e rest ih =>
      rw [List.foldl_cons, filter_getLast_cons]
      cases hl : (rest.filter (mlEntryFor L)).getLast? with
      | some y =>
          cases e with
          | obj kvs => rw [ih]; rw [hl]
          | null => rw [ih]; rw [hl]
          | bool b => rw [ih]; rw [hl]
          | num q => rw [ih]; rw [hl]
          | str s => rw [ih]; rw [hl]
          | arr l2 => rw [ih]; rw [hl]
      | none =>
          cases e with
          | obj kvs =>
              show dlookup (List.foldl _ (dinsert acc _ _) rest) L = _
              rw [ih]
              rw [hl]
              by_cases hL : (lookupLast kvs "lang").getD (.str "unknown") = L
              · rw [show mlEntryFor L (.obj kvs) = true by simp [mlEntryFor, hL]]
                rw [if_pos rfl]
                rw [hL]
                rw [dlookup_dinsert_self]
                rfl
              · rw [show mlEntryFor L (.obj kvs) = false by simp [mlEntryFor, hL]]
                rw [if_neg (by simp)]
                exact dlookup_dinsert_ne acc _ L _ (fun hc => hL hc.symm)
          | null => rw [ih]; rw [hl]; rfl
          | bool b => rw [ih]; rw [hl]; rfl
          | num q => rw [ih]; rw [hl]; rfl
          | str s => rw [ih]; rw [hl]; rfl
          | arr l2 => rw [ih]; rw [hl]; rfl

theorem moduleLoop_ok_lookup :
    ∀ (items : List JVal) (acc mam : List (JVal × ModuleData)),
      moduleLoop items acc = .ok mam → ∀ m,
        dlookup mam m =
          match (items.filter (isModuleEntryFor m)).getLast? with
          | some x => some (moduleDataOf x)
          | none => dlookup acc m := by
  intro items
  induction items with
  | nil =>
      intro acc mam h m
      cases h
      rfl
  | cons x rest ih =>
      intro acc mam h m
      cases x with
      | obj kvs =>
          rw [moduleLoop] at h
          cases hmod : lookupLast kvs "module" with
          | some mv =>
              rw [hmod] at h
              simp only [Option.isSome_some, if_true, Option.getD_some] at h
              have hrec := ih _ _ h m
              rw [filter_getLast_cons,
                show isModuleEntryFor m (.obj kvs) = decide (mv = m) by
                  simp [isModuleEntryFor, hmod]]
              cases hl : (rest.filter (isModuleEntryFor m)).getLast? with
              | some y =>
                  rw [hl] at hrec
                  exact hrec
              | none =>
                  rw [hl] at hrec
                  by_cases hm : mv = m
                  · subst hm
                    rw [if_pos (show decide (mv = mv) = true by simp)]
                    exact hrec.trans (dlookup_dinsert_self acc mv _)
                  · rw [if_neg (show ¬decide (mv = m) = true by simp [hm])]
                    exact hrec.trans (dlookup_dinsert_ne acc mv m _ (fun hc => hm hc.symm))
          | none =>
              rw [hmod] at h
              simp only [Option.isSome_none, Bool.false_eq_true, if_false] at h
              have hrec := ih _ _ h m
              rw [filter_getLast_cons,
                show isModuleEntryFor m (.obj kvs) = false by simp [isModuleEntryFor, hmod]]
              cases hl : (rest.filter (isModuleEntryFor m)).getLast? with
              | some y =>
                  rw [hl] at hrec
                  exact hrec
              | none =>
                  rw [hl] at hrec
                  rw [if_neg (show ¬(false : Bool) = true by simp)]
                  exact hrec
      | null => simp [moduleLoop] at h
      | bool b => simp [moduleLoop] at h
      | num q => simp [moduleLoop] at h
      | str s => simp [moduleLoop] at h
      | arr l2 => simp [moduleLoop] at h

theorem moduleLoop_ok_nodup :
    ∀ (items : List JVal) (acc mam : List (JVal × ModuleData)),
      moduleLoop items acc = .ok mam →
      (acc.map Prod.fst).Nodup → (mam.map Prod.fst).Nodup := by
  intro items
  induction items with
  | nil =>
      intro acc mam h hacc
      cases h
      exact hacc
  | cons x rest ih =>
      intro acc mam h hacc
      cases x with
      | obj kvs =>
          rw [moduleLoop] at h
          cases hmod : lookupLast kvs "module" with
          | some mv =>
              rw [hmod] at h
              simp only [Option.isSome_some, if_true, Option.getD_some] at h
              exact ih _ _ h (dinsert_keys_nodup acc mv _ hacc)
          | none =>
              rw [hmod] at h
              simp only [Option.isSome_none, Bool.false_eq_true, if_false] at h
              exact ih _ _ h hacc
      | null => simp [moduleLoop] at h
      | bool b => simp [moduleLoop] at h
      | num q => simp [moduleLoop] at h
      | str s => simp [moduleLoop] at h
      | arr l2 => simp [moduleLoop] at h

theorem refFlowLoop_ok_length :
    ∀ (items : List JVal) (rfid : JVal) (acc l : List RefFlowRec),
      refFlowLoop rfid items acc = .ok l →
      l.length = acc.length + items.countP (exMatchesB rfid) := by
  intro items
  induction items with
  | nil =>
      intro rfid acc l h
      cases h
      simp
  | cons ex rest ih =>
      intro rfid acc l h
      rw [refFlowLoop] at h
      obtain ⟨dsid, hd, h⟩ := EM.bind_ok_elim h
      have hmatch : exMatchesB rfid ex = decide (dsid = rfid) := by
        rw [exMatchesB, hd]
      by_cases hdm : dsid = rfid
      · rw [if_pos hdm] at h
        obtain ⟨mp, _, h⟩ := EM.bind_ok_elim h
        obtain ⟨fp, _, h⟩ := EM.bind_ok_elim h
        obtain ⟨fpl, _, h⟩ := EM.bind_ok_elim h
        obtain ⟨fps, _, h⟩ := EM.bind_ok_elim h
        obtain ⟨mpl, _, h⟩ := EM.bind_ok_elim h
        obtain ⟨mps, _, h⟩ := EM.bind_ok_elim h
        have := ih rfid _ l h
        rw [List.countP_cons_of_pos _ _ (by rw [hmatch]; simp [hdm])]
        rw [this]
        simp only [List.length_append, List.length_singleton]
        omega
      · rw [if_neg hdm] at h
        have := ih rfid _ l h
        rw [List.countP_cons_of_neg _ _ (by rw [hmatch]; simp [hdm])]
        exact this

theorem find?_of_unique {l : List String} {K : String} {p : String → Bool}
    (hK : K ∈ l) (hothers : ∀ k ∈ l, k ≠ K → p k = false) :
    l.find? p = if p K then some K else none := by
  induction l with
  | nil => cases hK
  | cons a rest ih =>
      by_cases ha : a = K
      · subst ha
        cases hpK : p a with
        | true =>
            rw [List.find?_cons_of_pos _ hpK]
            simp
        | false =>
            rw [List.find?_cons_of_neg _ (by rw [hpK]; exact Bool.false_ne_true),
              if_neg (show ¬(false = true) from Bool.false_ne_true)]
            rw [List.find?_eq_none]
            intro x hx
            by_cases hxa : x = a
            · subst hxa
              rw [hpK]
              exact Bool.false_ne_true
            · rw [hothers x (List.mem_cons_of_mem a hx) hxa]
              exact Bool.false_ne_true
      · have hpa : p a = false := hothers a (List.mem_cons_self a rest) ha
        have hKrest : K ∈ rest := by
          cases List.mem_cons.1 hK with
          | inl h => exact absurd h.symm ha
          | inr h => exact h
        rw [List.find?_cons_of_neg _ (by rw [hpa]; exact Bool.false_ne_true)]
        exact ih hKrest (fun k hk hne => hothers k (List.mem_cons_of_mem a hk) hne)

theorem matchOeko_ok_eq {c : ClassRow} {b : Bool} (h : matchOeko c = .ok b) :
    b = isOekoB c := by
  cases hn : c.name with
  | str s =>
      rw [matchOeko, hn] at h
      cases h
      rw [isOekoB, hn]
  | null => rw [matchOeko, hn] at h; cases h
  | bool b2 => rw [matchOeko, hn] at h; cases h
  | num q => rw [matchOeko, hn] at h; cases h
  | arr l => rw [matchOeko, hn] at h; cases h
  | obj kvs => rw [matchOeko, hn] at h; cases h

theorem filterOeko_ok :
    ∀ (l cs : List ClassRow), filterOeko l = .ok cs → cs = l.filter isOekoB := by
  intro l
  induction l with
  | nil =>
      intro cs h
      cases h
      rfl
  | cons c rest ih =>
      intro cs h
      rw [filterOeko] at h
      obtain ⟨b, hb, h⟩ := EM.bind_ok_elim h
      obtain ⟨r, hr, h⟩ := EM.bind_ok_elim h
      cases h
      rw [ih r hr, matchOeko_ok_eq hb, List.filter_cons]

theorem catProj_cons_of (tr : List (String × String)) (c : ClassRow) (cs : List ClassRow)
    (i lv : Int) (t base s1c res : JVal)
    (hlv : levelOf? c = some lv)
    (ht : translate_text c.classification tr = .ok t)
    (hs : s1c = if lv = i then t else base)
    (hrec : catProj tr cs i s1c res) :
    catProj tr (c :: cs) i base res := by
  unfold catProj at hrec ⊢
  rw [filter_getLast_cons]
  cases hl : (cs.filter (fun d => levelOf? d = some i)).getLast? with
  | some y =>
      rw [hl] at hrec
      exact hrec
  | none =>
      rw [hl] at hrec
      by_cases hli : lv = i
      · rw [if_pos (show decide (levelOf? c = some i) = true by simp [hlv, hli])]
        show translate_text c.classification tr = .ok res
        rw [hrec, hs, if_pos hli]
        exact ht
      · rw [if_neg (show ¬decide (levelOf? c = some i) = true by simp [hlv, hli])]
        show res = base
        rw [hrec, hs, if_neg hli]

theorem catProj_skip (tr : List (String × String)) (c : ClassRow) (cs : List ClassRow)
    (i : Int) (base res : JVal)
    (hno : (fun d => decide (levelOf? d = some i)) c = false)
    (hrec : catProj tr cs i base res) :
    catProj tr (c :: cs) i base res := by
  unfold catProj at hrec ⊢
  rw [filter_getLast_cons]
  cases hl : (cs.filter (fun d => levelOf? d = some i)).getLast? with
  | some y =>
      rw [hl] at hrec
      exact hrec
  | none =>
      rw [hl] at hrec
      rw [if_neg (by rw [show decide (levelOf? c = some i) = false from hno]; exact Bool.false_ne_true)]
      exact hrec

theorem catProj_refl (tr : List (String × String)) (i : Int) (base : JVal) :
    catProj tr [] i base base := by
  unfold catProj
  rfl

theorem catProj_trans (tr : List (String × String)) (cl : List ClassRow) (i : Int)
    (b mid res : JVal)
    (h1 : catProj tr cl i b mid) (h2 : catProj tr cl i mid res) :
    catProj tr cl i b res := by
  unfold catProj at h1 h2 ⊢
  cases hl : (cl.filter (fun d => levelOf? d = some i)).getLast? with
  | some y =>
      rw [hl] at h2
      exact h2
  | none =>
      rw [hl] at h1
      rw [hl] at h2
      exact h2.trans h1

theorem catFold_proj (tr : List (String × String)) :
    ∀ (classes : List ClassRow) (st st2 : JVal × JVal × JVal),
      classes.foldlM (catStep tr) st = .ok st2 →
      catProj tr classes 0 st.1 st2.1 ∧ catProj tr classes 1 st.2.1 st2.2.1 ∧
        catProj tr classes 2 st.2.2 st2.2.2 := by
  intro classes
  induction classes with
  | nil =>
      intro st st2 h
      cases h
      exact ⟨catProj_refl tr 0 _, catProj_refl tr 1 _, catProj_refl tr 2 _⟩
  | cons c cs ih =>
      intro st st2 h
      rw [List.foldlM_cons] at h
      obtain ⟨s1, hstep, h⟩ := EM.bind_ok_elim h
      rw [catStep] at hstep
      obtain ⟨lv, hlv, hstep⟩ := EM.bind_ok_elim hstep
      obtain ⟨t, ht, hstep⟩ := EM.bind_ok_elim hstep
      have hlv2 : levelOf? c = some lv := by rw [levelOf?, hlv]; rfl
      have hchar : s1.1 = (if lv = 0 then t else st.1) ∧
          s1.2.1 = (if lv = 1 then t else st.2.1) ∧
          s1.2.2 = (if lv = 2 then t else st.2.2) := by
        by_cases h0 : lv = 0
        · rw [if_pos h0] at hstep
          cases hstep
          subst h0
          refine ⟨by rw [if_pos rfl], by rw [if_neg (by decide)], by rw [if_neg (by decide)]⟩
        · rw [if_neg h0] at hstep
          by_cases h1 : lv = 1
          · rw [if_pos h1] at hstep
            cases hstep
            subst h1
            refine ⟨by rw [if_neg (by decide)], by rw [if_pos rfl], by rw [if_neg (by decide)]⟩
          · rw [if_neg h1] at hstep
            by_cases h2 : lv = 2
            · rw [if_pos h2] at hstep
              cases hstep
              subst h2
              refine ⟨by rw [if_neg (by decide)], by rw [if_neg (by decide)], by rw [if_pos rfl]⟩
            · rw [if_neg h2] at hstep
              cases hstep
              exact ⟨by rw [if_neg h0], by rw [if_neg h1], by rw [if_neg h2]⟩
      obtain ⟨ih0, ih1, ih2⟩ := ih s1 st2 h
      exact ⟨catProj_cons_of tr c cs 0 lv t st.1 s1.1 st2.1 hlv2 ht hchar.1 ih0,
             catProj_cons_of tr c cs 1 lv t st.2.1 s1.2.1 st2.2.1 hlv2 ht hchar.2.1 ih1,
             catProj_cons_of tr c cs 2 lv t st.2.2 s1.2.2 st2.2.2 hlv2 ht hchar.2.2 ih2⟩

theorem catLoop_ok (tr : List (String × String)) :
    ∀ (cls all : List ClassRow) (st st2 : JVal × JVal × JVal),
      catLoop tr all cls st = .ok st2 →
      ((cls.any isOekoB) = false → st2 = st) ∧
      ((cls.any isOekoB) = true →
        catProj tr (all.filter isOekoB) 0 st.1 st2.1 ∧
        catProj tr (all.filter isOekoB) 1 st.2.1 st2.2.1 ∧
        catProj tr (all.filter isOekoB) 2 st.2.2 st2.2.2) := by
  intro cls
  induction cls with
  | nil =>
      intro all st st2 h
      cases h
      exact ⟨fun _ => rfl, fun hany => by simp at hany⟩
  | cons c rest ih =>
      intro all st st2 h
      rw [catLoop] at h
      obtain ⟨b, hb, h⟩ := EM.bind_ok_elim h
      have hbe := matchOeko_ok_eq hb
      cases hbv : b with
      | true =>
          rw [hbv] at h
          simp only [if_true] at h
          obtain ⟨classes, hcl, h⟩ := EM.bind_ok_elim h
          have hcls : classes = all.filter isOekoB := filterOeko_ok all classes hcl
          subst hcls
          replace h : (((all.filter isOekoB).foldlM (catStep tr) st) >>=
              fun s => catLoop tr all rest s) = Except.ok st2 := h
          obtain ⟨stp, hfold, h⟩ := EM.bind_ok_elim h
          replace h : catLoop tr all rest stp = Except.ok st2 := h
          obtain ⟨f0, f1, f2⟩ := catFold_proj tr _ st stp hfold
          have ihh := ih all stp st2 h
          constructor
          · intro hany
            rw [List.any_cons] at hany
            rw [← hbe, hbv] at hany
            simp at hany
          · intro _
            by_cases hany2 : rest.any isOekoB = true
            · obtain ⟨g0, g1, g2⟩ := ihh.2 hany2
              exact ⟨catProj_trans tr _ 0 _ _ _ f0 g0,
                     catProj_trans tr _ 1 _ _ _ f1 g1,
                     catProj_trans tr _ 2 _ _ _ f2 g2⟩
            · have hst : st2 = stp := ihh.1 (by
                cases hx : rest.any isOekoB with
                | false => rfl
                | true => exact absurd hx hany2)
              subst hst
              exact ⟨f0, f1, f2⟩
      | false =>
          rw [hbv] at h
          simp only [Bool.false_eq_true, if_false] at h
          have ihh := ih all st st2 h
          constructor
          · intro hany
            rw [List.any_cons] at hany
            exact ihh.1 (by
              rcases Bool.or_eq_false_iff.1 hany with ⟨_, h2⟩
              exact h2)
          · intro hany
            rw [List.any_cons, ← hbe, hbv] at hany
            simp only [Bool.false_or] at hany
            exact ihh.2 hany

theorem parse_json_ok_proj {data : JVal} {tr : List (String × String)} {r : ParsedRecord}
    (h : parse_json data tr = .ok r) :
    parseProcessId data = .ok (r.process_id, r.uuid, r.version) ∧
    parseReferenceFlow data = .ok r.reference_flow := by
  rw [parse_json] at h
  obtain ⟨idv, hidv, h⟩ := EM.bind_ok_elim h
  obtain ⟨pi0, _, h⟩ := EM.bind_ok_elim h
  obtain ⟨dsi, _, h⟩ := EM.bind_ok_elim h
  obtain ⟨nameObj, _, h⟩ := EM.bind_ok_elim h
  obtain ⟨bn, _, h⟩ := EM.bind_ok_elim h
  obtain ⟨gc, _, h⟩ := EM.bind_ok_elim h
  obtain ⟨time0, _, h⟩ := EM.bind_ok_elim h
  obtain ⟨ry, _, h⟩ := EM.bind_ok_elim h
  obtain ⟨vu, _, h⟩ := EM.bind_ok_elim h
  obtain ⟨geo0, _, h⟩ := EM.bind_ok_elim h
  obtain ⟨geo1, _, h⟩ := EM.bind_ok_elim h
  obtain ⟨loc, _, h⟩ := EM.bind_ok_elim h
  obtain ⟨tech, _, h⟩ := EM.bind_ok_elim h
  obtain ⟨td, _, h⟩ := EM.bind_ok_elim h
  obtain ⟨ta, _, h⟩ := EM.bind_ok_elim h
  obtain ⟨mav, _, h⟩ := EM.bind_ok_elim h
  obtain ⟨mi, _, h⟩ := EM.bind_ok_elim h
  obtain ⟨dst, _, h⟩ := EM.bind_ok_elim h
  obtain ⟨mo, _, h⟩ := EM.bind_ok_elim h
  obtain ⟨manies, _, h⟩ := EM.bind_ok_elim h
  obtain ⟨mel, _, h⟩ := EM.bind_ok_elim h
  obtain ⟨dss, _, h⟩ := EM.bind_ok_elim h
  obtain ⟨dstr, _, h⟩ := EM.bind_ok_elim h
  obtain ⟨refs, _, h⟩ := EM.bind_ok_elim h
  obtain ⟨rl, _, h⟩ := EM.bind_ok_elim h
  obtain ⟨parts, _, h⟩ := EM.bind_ok_elim h
  obtain ⟨sources, _, h⟩ := EM.bind_ok_elim h
  obtain ⟨ua, _, h⟩ := EM.bind_ok_elim h
  obtain ⟨oeu, _, h⟩ := EM.bind_ok_elim h
  obtain ⟨vald, _, h⟩ := EM.bind_ok_elim h
  obtain ⟨revs, _, h⟩ := EM.bind_ok_elim h
  obtain ⟨rvl, _, h⟩ := EM.bind_ok_elim h
  obtain ⟨reviews, _, h⟩ := EM.bind_ok_elim h
  obtain ⟨cd, _, h⟩ := EM.bind_ok_elim h
  obtain ⟨comp, _, h⟩ := EM.bind_ok_elim h
  obtain ⟨cpl, _, h⟩ := EM.bind_ok_elim h
  obtain ⟨compliances, _, h⟩ := EM.bind_ok_elim h
  obtain ⟨adminInfo, _, h⟩ := EM.bind_ok_elim h
  obtain ⟨classifications, _, h⟩ := EM.bind_ok_elim h
  obtain ⟨exchanges, _, h⟩ := EM.bind_ok_elim h
  obtain ⟨lcias, _, h⟩ := EM.bind_ok_elim h
  obtain ⟨refFlow, hrf, h⟩ := EM.bind_ok_elim h
  obtain ⟨cats, _, h⟩ := EM.bind_ok_elim h
  injection h with hrec
  subst hrec
  exact ⟨hidv, hrf⟩

/-! ## Claim theorems -/

/-- C5: the multilingual collapse pairs each entry's language with its value
(`[lang en / value A, lang de / value B]` collapses to `en → A, de → B`),
an empty or non-list (absent) input collapses to the empty map, and in
general the binding of a language key is exactly the value of the last source
entry with that language — in particular a language with no entry is a
missing key, never an empty string. -/
theorem claim_C5_extract_multilang :
    (extract_multilang (.arr [.obj [("lang", .str "en"), ("value", .str "A")],
        .obj [("lang", .str "de"), ("value", .str "B")]])
      = [(.str "en", .str "A"), (.str "de", .str "B")]) ∧
    extract_multilang (.arr []) = [] ∧
    extract_multilang .null = [] ∧
    (∀ (xs : List JVal) (L : JVal),
      dlookup (extract_multilang (.arr xs)) L =
        ((xs.filter (mlEntryFor L)).getLast?).map mlValueOf) := by
  refine ⟨rfl, rfl, rfl, ?_⟩
  intro xs L
  rw [show extract_multilang (.arr xs) = xs.foldl (fun acc e =>
      match e with
      | .obj kvs =>
          dinsert acc ((lookupLast kvs "lang").getD (.str "unknown"))
            ((lookupLast kvs "value").getD .null)
      | _ => acc) [] from rfl]
  rw [ml_foldl_lookup xs [] L]
  cases hl : (xs.filter (mlEntryFor L)).getLast? with
  | some e => rfl
  | none => rfl

/-- C7: the timestamp converter interprets its input as Unix milliseconds and
returns the corresponding UTC instant: 1700000000000 ms converts to epoch
second 1700000000, which is the civil UTC time 2023-11-14T22:13:20Z; a null
input, a non-numeric string, and list/dict inputs all yield null.  The
function is total (it never raises): each case returns a value. -/
theorem claim_C7_convert_timestamp :
    convert_timestamp (.num 1700000000000) = some 1700000000000 ∧
    (1700000000000 : Int) = 1000 * epochSecondsOfCivil 2023 11 14 22 13 20 ∧
    convert_timestamp .null = none ∧
    (∀ s, strToInt? s = none → convert_timestamp (.str s) = none) ∧
    (∀ xs, convert_timestamp (.arr xs) = none) ∧
    (∀ kvs, convert_timestamp (.obj kvs) = none) := by
  refine ⟨rfl, by decide, rfl, ?_, ?_, ?_⟩
  · intro s hparse
    rw [convert_timestamp]
    cases hps : pyTruthy (.str s) with
    | false => rfl
    | true =>
        show (pyInt (.str s)).toOption = none
        rw [show pyInt (.str s) = (match strToInt? s with
          | some n => Except.ok n
          | none => Except.error PyErr.valueErr) from rfl, hparse]
        rfl
  · intro xs
    cases xs with
    | nil => rfl
    | cons a as => rfl
  · intro kvs
    cases kvs with
    | nil => rfl
    | cons a as => rfl

/-- C7 witness: the string "abc" is non-numeric and converts to null. -/
theorem claim_C7_witness :
    strToInt? "abc" = none ∧ convert_timestamp (.str "abc") = none :=
  ⟨by decide, claim_C7_convert_timestamp.2.2.2.1 "abc" (by decide)⟩

/-- C9 counterexample: the extension entry `entUnitAndModule` carries both
the name `referenceToUnitGroupDataSet` and a `module` key, so two of the
three extraction rules apply to it at once, and it contributes both a unit
("kg") and a module-amount row (module A1) — refuting the claim that no
single entry can satisfy more than one rule. -/
theorem claim_C9_counterexample :
    unitRule entUnitAndModule = true ∧ moduleRule entUnitAndModule = true ∧
    unitLoop [entUnitAndModule] .null = .ok (.str "kg") ∧
    moduleLoop [entUnitAndModule] [] =
      .ok [(.str "A1", { amount := none, scenario := .str "" })] :=
  ⟨rfl, rfl, rfl, rfl⟩

/-- C9 amended: the two name-keyed rules are mutually exclusive — an entry
whose name selects the unit rule can never also select the
original-source-URL rule — but the module rule is keyed independently on the
presence of a `module` key and can co-occur with a name rule (see the
counterexample), so only the unit/URL pair is exclusive. -/
theorem claim_C9_amended :
    ∀ e, unitRule e = true → origEpdRule e = false := by
  intro e h
  cases e with
  | obj kvs =>
      rw [unitRule] at h
      rw [origEpdRule]
      rw [show (lookupLast kvs "name").getD .null = .str "referenceToUnitGroupDataSet" by
        exact of_decide_eq_true h]
      decide
  | null => cases h
  | bool b => cases h
  | num q => cases h
  | str s => cases h
  | arr l => cases h

/-- C9 witness: the rules are evaluated at the concrete double-keyed entry. -/
theorem claim_C9_witness :
    unitRule entUnitAndModule = true ∧ origEpdRule entUnitAndModule = false :=
  ⟨rfl, claim_C9_amended entUnitAndModule rfl⟩

/-- C10: for any extension list that the module-amount loop accepts, the
resulting map has at most one entry per module code (its keys are
duplicate-free), and the binding of each module code is exactly the
amount/scenario data of the last list entry carrying that module — earlier
entries with the same module are discarded.  The same loop body is used
verbatim for exchanges (source lines 213-228) and LCIA results (256-271). -/
theorem claim_C10_module_amounts :
    ∀ (items : List JVal) (mam : List (JVal × ModuleData)),
      moduleLoop items [] = .ok mam →
      (mam.map Prod.fst).Nodup ∧
      (∀ m, dlookup mam m = ((items.filter (isModuleEntryFor m)).getLast?).map moduleDataOf) := by
  intro items mam h
  refine ⟨moduleLoop_ok_nodup items [] mam h (by simp), ?_⟩
  intro m
  rw [moduleLoop_ok_lookup items [] mam h m]
  cases hl : (items.filter (isModuleEntryFor m)).getLast? with
  | some x => rfl
  | none => rfl

/-- C10 witness: two entries for module A1; the loop keeps one row whose
amount (2.5) and scenario (the default empty string) come from the second
entry, discarding the first entry's 1.5 and "S1". -/
theorem claim_C10_witness :
    moduleLoop itemsSameModule [] = .ok mamSameModule ∧
    ((mamSameModule.map Prod.fst).Nodup ∧
     (∀ m, dlookup mamSameModule m =
        ((itemsSameModule.filter (isModuleEntryFor m)).getLast?).map moduleDataOf)) :=
  ⟨rfl, claim_C10_module_amounts itemsSameModule mamSameModule rfl⟩

/-- C4 counterexample: with an empty table at the initial lookup but a row
with the same UUID visible at insert time (a concurrent duplicate-key
conflict), `get_or_create_datastock` returns `none` — a null/failure result —
rather than re-fetching the existing identifier, refuting the claim. -/
theorem claim_C4_counterexample :
    get_or_create_datastock { rows := [], nextId := 0 }
      { rows := [{ datastock_id := 7, name := "Default", uuid := "1111-2222" }], nextId := 8 }
      "Default" "1111-2222" =
      (none, { rows := [{ datastock_id := 7, name := "Default", uuid := "1111-2222" }],
               nextId := 8 }) := rfl

/-- C4 amended: when the UUID is found by the initial lookup the existing
identifier is returned and nothing is inserted; when the lookup misses but
the insert hits a duplicate-uuid conflict, the blanket exception handler
rolls back and the call returns null (the caller then skips the folder) —
it does not re-fetch; only when both miss is a fresh row inserted and its
new identifier returned. -/
theorem claim_C4_datastock :
    ∀ (sel ins : DSState) (name uuid : String),
      (∀ row, sel.rows.find? (fun x => x.uuid = uuid) = some row →
        get_or_create_datastock sel ins name uuid = (some row.datastock_id, ins)) ∧
      (sel.rows.find? (fun x => x.uuid = uuid) = none →
        (ins.rows.any fun x => x.uuid = uuid) = true →
        get_or_create_datastock sel ins name uuid = (none, ins)) ∧
      (sel.rows.find? (fun x => x.uuid = uuid) = none →
        (ins.rows.any fun x => x.uuid = uuid) = false →
        get_or_create_datastock sel ins name uuid =
          (some ins.nextId,
           { rows := ins.rows ++ [{ datastock_id := ins.nextId, name := name, uuid := uuid }],
             nextId := ins.nextId + 1 })) := by
  intro sel ins name uuid
  refine ⟨?_, ?_, ?_⟩
  · intro row hfind
    rw [get_or_create_datastock, hfind]
  · intro hfind hany
    rw [get_or_create_datastock, hfind, if_pos hany]
  · intro hfind hany
    rw [get_or_create_datastock, hfind,
      if_neg (by rw [hany]; exact Bool.false_ne_true)]

/-- C4 witness: the amended behavior applied at the conflict scenario of the
counterexample. -/
theorem claim_C4_witness :
    (({ rows := [], nextId := 0 } : DSState).rows.find?
        (fun x => x.uuid = "1111-2222") = none ∧
     (({ rows := [{ datastock_id := 7, name := "Default", uuid := "1111-2222" }],
         nextId := 8 } : DSState).rows.any fun x => x.uuid = "1111-2222") = true) ∧
    get_or_create_datastock { rows := [], nextId := 0 }
      { rows := [{ datastock_id := 7, name := "Default", uuid := "1111-2222" }], nextId := 8 }
      "Default" "1111-2222" =
      (none, { rows := [{ datastock_id := 7, name := "Default", uuid := "1111-2222" }],
               nextId := 8 }) :=
  ⟨⟨rfl, rfl⟩,
   (claim_C4_datastock { rows := [], nextId := 0 }
      { rows := [{ datastock_id := 7, name := "Default", uuid := "1111-2222" }], nextId := 8 }
      "Default" "1111-2222").2.1 rfl rfl⟩

theorem store_data_single (it : ParsedRecord) (db : DB) (ds : Nat) :
    store_data_in_db [it] db ds = storeItem db it ds := by
  rw [store_data_in_db, List.foldlM_cons]
  cases storeItem db it ds with
  | none => rfl
  | some d => rfl

/-- C1: importing a record is insert-once and idempotent.  If one import of
`it` turns the store `db` into `db2`, then: importing `it` again leaves `db2`
unchanged (the second import is a no-op); if a Product row with the same
process_id already existed, the first import already changed nothing; and
`db2` holds exactly one Product row with that process_id when none existed
before (the `max` collapses to the old count when a row already existed, so
no second row is ever added). -/
theorem claim_C1_store_idempotent :
    ∀ (db : DB) (it : ParsedRecord) (ds : Nat) (db2 : DB),
      store_data_in_db [it] db ds = some db2 →
      store_data_in_db [it] db2 ds = some db2 ∧
      ((db.products.any fun p => p.process_id = it.process_id) = true → db2 = db) ∧
      db2.products.countP (fun p => p.process_id = it.process_id) =
        max (db.products.countP fun p => p.process_id = it.process_id) 1 := by
  intro db it ds db2 h
  rw [store_data_single] at h
  rw [store_data_single]
  cases hany : (db.products.any fun p => p.process_id = it.process_id) with
  | true =>
      rw [storeItem, if_pos hany] at h
      injection h with h
      subst h
      refine ⟨?_, fun _ => rfl, ?_⟩
      · rw [storeItem, if_pos hany]
      · have hpos : 0 < db.products.countP (fun p => p.process_id = it.process_id) := by
          rw [List.countP_pos_iff]
          obtain ⟨p, hp, hpp⟩ := List.any_eq_true.1 hany
          exact ⟨p, hp, hpp⟩
        omega
  | false =>
      rw [storeItem, if_neg (by rw [hany]; exact Bool.false_ne_true)] at h
      cases hjoin : (pyJoinStr ", " (it.admin_info.formats.filter pyTruthy)).toOption with
      | none => rw [hjoin] at h; cases h
      | some fmtStr =>
          rw [hjoin] at h
          injection h with h
          have hz : db.products.countP (fun p => p.process_id = it.process_id) = 0 := by
            rw [List.countP_eq_zero]
            intro a ha
            exact List.any_eq_false.1 hany a ha
          have hprod := congrArg DB.products h
          have hmem : (db2.products.any fun p => p.process_id = it.process_id) = true := by
            rw [← hprod]
            rw [List.any_append, hany]
            simp
          refine ⟨?_, ?_, ?_⟩
          · rw [storeItem, if_pos hmem]
          · intro hc
            exact absurd hc Bool.false_ne_true
          · rw [← hprod, List.countP_append, hz, List.countP_cons, List.countP_nil]
            simp

/-- C1 witness: importing the concrete record `itemW` into the empty store
and then importing it again. -/
theorem claim_C1_witness :
    store_data_in_db [itemW] dbW 0 = some dbW2 ∧
    (store_data_in_db [itemW] dbW2 0 = some dbW2 ∧
     ((dbW.products.any fun p => p.process_id = itemW.process_id) = true → dbW2 = dbW) ∧
     dbW2.products.countP (fun p => p.process_id = itemW.process_id) =
       max (dbW.products.countP fun p => p.process_id = itemW.process_id) 1) :=
  ⟨rfl, claim_C1_store_idempotent dbW itemW 0 dbW2 rfl⟩

/-- C2 counterexample: `docNoUuid` has its `processInformation.dataSetInformation`
object present but carries no `UUID` binding, yet `parse_json` succeeds —
returning a record with uuid `""` and process_id `"_"` that would be stored —
instead of raising a structural error, refuting the claim that a missing UUID
anchor makes parsing raise. -/
theorem claim_C2_counterexample :
    (parse_json docNoUuid []).toOption.map (fun r => (r.process_id, r.uuid)) =
      some ("_", .str "") ∧
    (pyIndex docNoUuid "processInformation" >>= fun p =>
      pyIndex p "dataSetInformation") = .ok (.obj []) :=
  ⟨rfl, rfl⟩

/-- C2 amended: a missing UUID or version key is not an error — the `.get`
chain defaults them to the empty string.  Whenever parsing succeeds, the
record's process_id is the concatenation `str(uuid) + "_" + str(version)`;
if the dataSetInformation object lacks a `UUID` binding the record's uuid is
`""`, and if publicationAndOwnership lacks `dataSetVersion` the version is
`""`.  (Parsing raises only when required container anchors such as
`processInformation`, `dataSetInformation`, `modellingAndValidation` or the
quantitativeReference declaration are absent.) -/
theorem claim_C2_amended :
    ∀ (data : JVal) (tr : List (String × String)) (r : ParsedRecord),
      parse_json data tr = .ok r →
      r.process_id = pyStr r.uuid ++ "_" ++ pyStr r.version ∧
      (∀ p0 kvs, pyGet data "processInformation" (.obj []) = .ok p0 →
        pyGet p0 "dataSetInformation" (.obj []) = .ok (.obj kvs) →
        lookupLast kvs "UUID" = none → r.uuid = .str "") ∧
      (∀ a0 kvs, pyGet data "administrativeInformation" (.obj []) = .ok a0 →
        pyGet a0 "publicationAndOwnership" (.obj []) = .ok (.obj kvs) →
        lookupLast kvs "dataSetVersion" = none → r.version = .str "") := by
  intro data tr r h
  have hid := (parse_json_ok_proj h).1
  rw [parseProcessId] at hid
  obtain ⟨p0x, hp0, hid⟩ := EM.bind_ok_elim hid
  obtain ⟨d0x, hd0, hid⟩ := EM.bind_ok_elim hid
  obtain ⟨ux, hu, hid⟩ := EM.bind_ok_elim hid
  obtain ⟨a0x, ha0, hid⟩ := EM.bind_ok_elim hid
  obtain ⟨po0x, hpo, hid⟩ := EM.bind_ok_elim hid
  obtain ⟨vx, hv, hid⟩ := EM.bind_ok_elim hid
  injection hid with hid
  have h1 : pyStr ux ++ "_" ++ pyStr vx = r.process_id := congrArg Prod.fst hid
  have h2 : ux = r.uuid := congrArg (fun t => t.2.1) hid
  have h3 : vx = r.version := congrArg (fun t => t.2.2) hid
  refine ⟨by rw [← h1, ← h2, ← h3], ?_, ?_⟩
  · intro p0 kvs hq1 hq2 hq3
    have e1 : p0x = p0 := Except.ok.inj (hp0.symm.trans hq1)
    subst e1
    have e2 : d0x = .obj kvs := Except.ok.inj (hd0.symm.trans hq2)
    subst e2
    rw [pyGet, hq3] at hu
    have hx : JVal.str "" = ux := Except.ok.inj hu
    exact (hx.trans h2).symm
  · intro a0 kvs hq1 hq2 hq3
    have e1 : a0x = a0 := Except.ok.inj (ha0.symm.trans hq1)
    subst e1
    have e2 : po0x = .obj kvs := Except.ok.inj (hpo.symm.trans hq2)
    subst e2
    rw [pyGet, hq3] at hv
    have hx : JVal.str "" = vx := Except.ok.inj hv
    exact (hx.trans h3).symm

/-- C2 witness: the amended statement applied at the concrete document
without a UUID. -/
theorem claim_C2_witness :
    parse_json docNoUuid [] = .ok recNoUuid ∧
    recNoUuid.uuid = .str "" ∧ recNoUuid.process_id = "_" :=
  ⟨rfl,
   (claim_C2_amended docNoUuid [] recNoUuid rfl).2.1 piNoUuid [] rfl rfl rfl,
   rfl⟩

/-- C3 counterexample: in `docRefMiss` the declared reference-flow internal
ID (1) matches zero exchanges, yet `parse_json` succeeds and produces a
record whose reference-flow list is empty — it does not raise — refuting the
claim that a zero-match declaration is treated as a hard structural error. -/
theorem claim_C3_counterexample :
    (parse_json docRefMiss []).toOption.map (fun r => r.reference_flow) = some [] ∧
    (exchangeItems docRefMiss).toOption.map
      (fun items => items.countP (exMatchesB (.num 1))) = some 0 :=
  ⟨rfl, rfl⟩

/-- C3 amended: parsing raises only when the declaration
`processInformation.quantitativeReference.referenceToReferenceFlow[0]` itself
cannot be read; once it is, the scan never raises on zero or several
matches — whenever parsing succeeds the record carries exactly one
reference-flow entry per matching exchange, so zero matches yield an empty
reference-flow list and several matches yield several entries. -/
theorem claim_C3_amended :
    ∀ (data : JVal) (tr : List (String × String)) (r : ParsedRecord)
      (pi0 qr rr rfid : JVal) (items : List JVal),
      parse_json data tr = .ok r →
      pyIndex data "processInformation" = .ok pi0 →
      pyIndex pi0 "quantitativeReference" = .ok qr →
      pyIndex qr "referenceToReferenceFlow" = .ok rr →
      pyNth rr 0 = .ok rfid →
      exchangeItems data = .ok items →
      r.reference_flow.length = items.countP (exMatchesB rfid) ∧
      (items.countP (exMatchesB rfid) = 0 → r.reference_flow = []) := by
  intro data tr r pi0 qr rr rfid items h hq1 hq2 hq3 hq4 hq5
  have hrf := (parse_json_ok_proj h).2
  rw [parseReferenceFlow] at hrf
  obtain ⟨pi0x, hp1, hrf⟩ := EM.bind_ok_elim hrf
  have e1 : pi0x = pi0 := Except.ok.inj (hp1.symm.trans hq1)
  subst e1
  obtain ⟨qrx, hp2, hrf⟩ := EM.bind_ok_elim hrf
  have e2 : qrx = qr := Except.ok.inj (hp2.symm.trans hq2)
  subst e2
  obtain ⟨rrx, hp3, hrf⟩ := EM.bind_ok_elim hrf
  have e3 : rrx = rr := Except.ok.inj (hp3.symm.trans hq3)
  subst e3
  obtain ⟨rfidx, hp4, hrf⟩ := EM.bind_ok_elim hrf
  have e4 : rfidx = rfid := Except.ok.inj (hp4.symm.trans hq4)
  subst e4
  obtain ⟨itemsx, hp5, hrf⟩ := EM.bind_ok_elim hrf
  have e5 : itemsx = items := Except.ok.inj (hp5.symm.trans hq5)
  subst e5
  have hlen := refFlowLoop_ok_length itemsx rfidx [] r.reference_flow hrf
  rw [List.length_nil] at hlen
  refine ⟨by omega, ?_⟩
  intro hzero
  rw [hzero] at hlen
  exact List.length_eq_zero.1 (by omega)

/-- C3 witness: the amended statement applied at the concrete document whose
declared reference-flow ID matches zero exchanges. -/
theorem claim_C3_witness :
    parse_json docRefMiss [] = .ok recRefMiss ∧
    (recRefMiss.reference_flow.length =
        ([.obj [("dataSetInternalID", .num 2)]] : List JVal).countP (exMatchesB (.num 1)) ∧
     (([.obj [("dataSetInternalID", .num 2)]] : List JVal).countP (exMatchesB (.num 1)) = 0 →
        recRefMiss.reference_flow = [])) :=
  ⟨rfl,
   claim_C3_amended docRefMiss [] recRefMiss
     (.obj [("dataSetInformation", .obj [("UUID", .str "u1")]),
            ("quantitativeReference", .obj [("referenceToReferenceFlow", .arr [.num 1])])])
     (.obj [("referenceToReferenceFlow", .arr [.num 1])])
     (.arr [.num 1]) (.num 1) [.obj [("dataSetInternalID", .num 2)]]
     rfl rfl rfl rfl rfl rfl⟩

theorem gik_none :
    ∀ d : List (JVal × JVal), d.all variantMatchesNone = true →
      get_indicator_key d = .ok none := by
  intro d
  induction d with
  | nil => intro _; rfl
  | cons p rest ih =>
      intro hall
      rw [List.all_cons, Bool.and_eq_true] at hall
      obtain ⟨hp, hrest⟩ := hall
      obtain ⟨k0, v⟩ := p
      cases v with
      | str s =>
          have hfi : findIndicator s = none := by
            rw [findIndicator, List.find?_eq_none]
            intro k hk
            have hx := List.all_eq_true.1 hp k hk
            simp only [Bool.not_eq_true'] at hx
            simp [hx]
          rw [get_indicator_key, hfi]
          exact ih hrest
      | null => exact absurd hp (by simp [variantMatchesNone])
      | bool b => exact absurd hp (by simp [variantMatchesNone])
      | num q => exact absurd hp (by simp [variantMatchesNone])
      | arr l => exact absurd hp (by simp [variantMatchesNone])
      | obj kvs => exact absurd hp (by simp [variantMatchesNone])

theorem gik_unique :
    ∀ d : List (JVal × JVal),
      d.all isStrVariant = true →
      d.all (variantOnlyMatches "GWP-total") = true →
      d.any (variantMatches "GWP-total") = true →
      get_indicator_key d = .ok (some "GWP-total") := by
  intro d
  induction d with
  | nil => intro _ _ hany; cases hany
  | cons p rest ih =>
      intro hstr honly hany
      rw [List.all_cons, Bool.and_eq_true] at hstr honly
      rw [List.any_cons] at hany
      obtain ⟨k0, v⟩ := p
      cases v with
      | str s =>
          have hothers : ∀ k ∈ target_indicators, k ≠ "GWP-total" →
              wordBoundMatch k s = false := by
            intro k hk hne
            have hx := List.all_eq_true.1 honly.1 k hk
            have hx2 : k = "GWP-total" ∨ wordBoundMatch k s = false := by
              simpa using hx
            rcases hx2 with hx2 | hx2
            · exact absurd hx2 hne
            · exact hx2
          have hfi : findIndicator s =
              if wordBoundMatch "GWP-total" s then some "GWP-total" else none :=
            find?_of_unique (by decide) hothers
          cases hm : wordBoundMatch "GWP-total" s with
          | true => rw [get_indicator_key, hfi, if_pos hm]
          | false =>
              rw [get_indicator_key, hfi,
                if_neg (by rw [hm]; exact Bool.false_ne_true)]
              refine ih hstr.2 honly.2 ?_
              have hany2 : wordBoundMatch "GWP-total" s = true ∨
                  rest.any (variantMatches "GWP-total") = true := by
                simpa [variantMatches] using hany
              rcases hany2 with hx | hx
              · rw [hm] at hx
                exact absurd hx Bool.false_ne_true
              · exact hx
      | null => exact absurd hstr.1 (by simp [isStrVariant])
      | bool b => exact absurd hstr.1 (by simp [isStrVariant])
      | num q => exact absurd hstr.1 (by simp [isStrVariant])
      | arr l => exact absurd hstr.1 (by simp [isStrVariant])
      | obj kvs => exact absurd hstr.1 (by simp [isStrVariant])

/-- C6: indicator resolution is whole-word and case-insensitive over the
candidate set: a multilingual map whose string variants contain the
standalone token GWP-total and no other canonical token resolves to
GWP-total; the text "contains GWPtotal here" (no separator) does not match
the GWP-total candidate; a map none of whose variants matches any canonical
token resolves to null; and the resolution is a pure function, so within one
run the same input always gives the same output. -/
theorem claim_C6_indicator :
    (∀ d : List (JVal × JVal),
      d.all isStrVariant = true →
      d.all (variantOnlyMatches "GWP-total") = true →
      d.any (variantMatches "GWP-total") = true →
      get_indicator_key d = .ok (some "GWP-total")) ∧
    wordBoundMatch "GWP-total" "contains GWPtotal here" = false ∧
    (∀ d : List (JVal × JVal), d.all variantMatchesNone = true →
      get_indicator_key d = .ok none) ∧
    (∀ d1 d2 : List (JVal × JVal), d1 = d2 →
      get_indicator_key d1 = get_indicator_key d2) :=
  ⟨gik_unique, by decide, gik_none, fun d1 d2 h => by rw [h]⟩

/-- C6 witness: the resolution evaluated at a concrete one-variant map whose
text contains the standalone token GWP-total. -/
theorem claim_C6_witness :
    (gwpVariant.all isStrVariant = true ∧
     gwpVariant.all (variantOnlyMatches "GWP-total") = true ∧
     gwpVariant.any (variantMatches "GWP-total") = true) ∧
    get_indicator_key gwpVariant = .ok (some "GWP-total") :=
  ⟨⟨by decide, by decide, by decide⟩,
   claim_C6_indicator.1 gwpVariant (by decide) (by decide) (by decide)⟩

/-- C8: whenever the category loop succeeds, each category slot holds the
translated value of the last classification row (in document order) whose
system name is "oekobau.dat" case-insensitively and whose integer level is
0 / 1 / 2 respectively, and stays null when no such row exists; and the
translation lookup returns the mapped English term when the normalised form
(commas removed, lowercased, stripped) is in the table, otherwise the
original text unchanged. -/
theorem claim_C8_categories :
    ∀ (tr : List (String × String)) (cls : List ClassRow) (st2 : JVal × JVal × JVal),
      catLoop tr cls cls (.null, .null, .null) = .ok st2 →
      (catProj tr (cls.filter isOekoB) 0 .null st2.1 ∧
       catProj tr (cls.filter isOekoB) 1 .null st2.2.1 ∧
       catProj tr (cls.filter isOekoB) 2 .null st2.2.2) ∧
      (∀ s en, s ≠ "" → dlookup tr (cleanText s) = some en →
        translate_text (.str s) tr = .ok (.str en)) ∧
      (∀ s, s ≠ "" → dlookup tr (cleanText s) = none →
        translate_text (.str s) tr = .ok (.str s)) := by
  intro tr cls st2 h
  refine ⟨?_, ?_, ?_⟩
  · have hloop := catLoop_ok tr cls cls (.null, .null, .null) st2 h
    cases hany : cls.any isOekoB with
    | true => exact hloop.2 hany
    | false =>
        have hnil : cls.filter isOekoB = [] := by
          rw [List.filter_eq_nil_iff]
          intro a ha
          have := List.any_eq_false.1 hany a ha
          simpa using this
        have hst : st2 = (.null, .null, .null) := hloop.1 hany
        rw [hnil, hst]
        exact ⟨catProj_refl tr 0 _, catProj_refl tr 1 _, catProj_refl tr 2 _⟩
  · intro s en hs hlook
    rw [translate_text, if_pos (by simpa [pyTruthy] using hs)]
    show (match dlookup tr (cleanText s) with
      | some en2 => Except.ok (JVal.str en2)
      | none => Except.ok (JVal.str s)) = Except.ok (JVal.str en)
    rw [hlook]
  · intro s hs hlook
    rw [translate_text, if_pos (by simpa [pyTruthy] using hs)]
    show (match dlookup tr (cleanText s) with
      | some en2 => Except.ok (JVal.str en2)
      | none => Except.ok (JVal.str s)) = Except.ok (JVal.str s)
    rw [hlook]

/-- C8 witness: two "oekobau.dat" rows at level 0 (last value "Beton",
translated to "concrete" by the one-entry table) and one row of another
system; the loop produces category_level_1 = "concrete" and leaves the other
two levels null. -/
theorem claim_C8_witness :
    catLoop trW clsW clsW (.null, .null, .null) = .ok (.str "concrete", .null, .null) ∧
    ((catProj trW (clsW.filter isOekoB) 0 .null (.str "concrete") ∧
      catProj trW (clsW.filter isOekoB) 1 .null .null ∧
      catProj trW (clsW.filter isOekoB) 2 .null .null) ∧
     (∀ s en, s ≠ "" → dlookup trW (cleanText s) = some en →
       translate_text (.str s) trW = .ok (.str en)) ∧
     (∀ s, s ≠ "" → dlookup trW (cleanText s) = none →
       translate_text (.str s) trW = .ok (.str s))) :=
  ⟨rfl, claim_C8_categories trW clsW (.str "concrete", .null, .null) rfl⟩
